import Mathlib

/-!
# Verification of the djtree GEDCOM import pipeline

A shallow embedding of the GEDCOM import subsystem of the djtree genealogy
application: the field normalizers and person matcher
(`person/management/util/person_matcher.py`), the GEDCOM parser and import
orchestrator (`person/management/commands/import_gedcom.py`), and the
relevant model-layer save semantics (`person/models.py`).

Python strings are modelled as Lean `String`s manipulated through their
underlying `List Char`; only the ASCII behaviour of `str.lower`, `str.upper`,
`str.strip` and of the regex classes `\d`/`\s` is modelled, which covers all
data handled by the claims.  A Python function that can raise an uncaught
exception is modelled with `Except String`, the error string standing in for
the exception message (message text approximated, not byte-for-byte).
-/

set_option autoImplicit false

namespace Djtree

/-- ASCII decimal digit, the `\d` class of the `re` patterns on this data. -/
def isPyDigit (c : Char) : Bool := decide (48 ≤ c.toNat ∧ c.toNat ≤ 57)

/-- ASCII whitespace as recognised by Python `str.strip`, `str.split()` and
the regex class `\s` (space, tab, newline, carriage return, vertical tab,
form feed). -/
def isPySpace (c : Char) : Bool :=
  decide (c.toNat = 32 ∨ c.toNat = 9 ∨ c.toNat = 10 ∨ c.toNat = 13 ∨
          c.toNat = 11 ∨ c.toNat = 12)

/-- Numeric value of a digit character. -/
def digitVal (c : Char) : Nat := c.toNat - 48

/-- `str.lower` on one ASCII character. -/
def pyLowerChar (c : Char) : Char :=
  if 65 ≤ c.toNat ∧ c.toNat ≤ 90 then Char.ofNat (c.toNat + 32) else c

/-- `str.upper` on one ASCII character. -/
def pyUpperChar (c : Char) : Char :=
  if 97 ≤ c.toNat ∧ c.toNat ≤ 122 then Char.ofNat (c.toNat - 32) else c

/-- `str.strip()` on a character list: drop leading and trailing whitespace. -/
def stripChars (l : List Char) : List Char :=
  ((l.dropWhile isPySpace).reverse.dropWhile isPySpace).reverse

/-- `str.strip()`. -/
def pyStrip (s : String) : String := String.mk (stripChars s.data)

/-- `str.lower().strip()`, the normalization used by the name matcher. -/
def pyLowerStrip (s : String) : String :=
  String.mk (stripChars (s.data.map pyLowerChar))

/-- `str.split('/')` on a character list (separator-split keeping empty
segments), written with an accumulator for the current segment. -/
def splitSlashGo : List Char → List Char → List (List Char)
  | [], acc => [acc.reverse]
  | c :: rest, acc =>
    if c = '/' then acc.reverse :: splitSlashGo rest []
    else splitSlashGo rest (c :: acc)

/-- `str.split('/')`. -/
def splitOnSlash (l : List Char) : List (List Char) := splitSlashGo l []

/-- `str.split()` (no separator: whitespace runs, no empty tokens),
written with an accumulator for the current (reversed) token. -/
def wsTokensGo : List Char → List Char → List (List Char)
  | [], cur => if cur.isEmpty then [] else [cur.reverse]
  | c :: rest, cur =>
    if isPySpace c then
      if cur.isEmpty then wsTokensGo rest [] else cur.reverse :: wsTokensGo rest []
    else wsTokensGo rest (c :: cur)

/-- `str.split()` with no separator argument. -/
def pySplitWs (s : String) : List String := (wsTokensGo s.data []).map String.mk

/-- `" ".join(parts)`. -/
def joinSp : List String → String
  | [] => ""
  | [s] => s
  | s :: rest => s ++ " " ++ joinSp rest

/-- The last element of a nonempty list (`parts[-1]`), with a default. -/
def lastD : List String → String → String
  | [], d => d
  | [x], _ => x
  | _ :: x :: xs, d => lastD (x :: xs) d

/-- GEDCOM field values as produced by `GEDCOMParser` and consumed by
`PersonMatcher` / `GEDCOMImporter`: a plain string, a level-1 sub-mapping
whose level-2/3 children are strings, or the value list of a multi-value
tag (`CHIL`/`HUSB`/`WIFE`). -/
inductive GVal where
  | str (s : String)
  | dict (d : List (String × String))
  | vals (l : List String)
deriving DecidableEq, Repr

/-- `d.get(k)` on an insertion-ordered dict modelled as an association list
(the parser never stores duplicate keys). -/
def gvalGet (d : List (String × GVal)) (k : String) : Option GVal :=
  (d.find? (fun kv => kv.1 == k)).map (fun kv => kv.2)

/-- `d.get(k, default)` on a string-valued sub-mapping. -/
def dictGetD (d : List (String × String)) (k defv : String) : String :=
  (((d.find? (fun kv => kv.1 == k)).map (fun kv => kv.2)).getD defv)

/-! ## `PersonMatcher._parse_name` -/

/-- The `[part.strip() for part in name_str.split('/') if part.strip()]`
list of the slash branch of `_parse_name`. -/
def slashParts (s : String) : List String :=
  (((splitOnSlash s.data).map (fun l => String.mk (stripChars l))).filter
    (fun p => p != ""))

/-- The whitespace fallback branch of `_parse_name`
(`parts = name_str.strip().split()` followed by the 1/2/3+ token cases);
`parts[0]` on an empty list raises `IndexError`. -/
def parseNameFallback (s : String) : Except String (String × String × String) :=
  match pySplitWs (pyStrip s) with
  | [] => .error "list index out of range"
  | [a] => .ok (a, "", "")
  | [a, b] => .ok (a, "", b)
  | a :: b :: c :: rest =>
    .ok (a, joinSp ((b :: c :: rest).dropLast), lastD (b :: c :: rest) "")

/-- `PersonMatcher._parse_name` on a string argument.  The slash branch
applies only when splitting yields at least two nonempty stripped segments;
otherwise control falls through to the whitespace branch on the original
string, exactly as in the source. -/
def pyParseName (s : String) : Except String (String × String × String) :=
  if s = "" then .ok ("", "", "")
  else if s.data.contains '/' then
    match slashParts s with
    | given :: surname :: _ =>
      match pySplitWs given with
      | [] => .error "list index out of range"
      | [g] => .ok (g, "", surname)
      | g :: g2 :: gs => .ok (g, joinSp (g2 :: gs), surname)
    | _ => parseNameFallback s
  else parseNameFallback s

/-- `PersonMatcher._parse_name` including the
`not isinstance(name_str, str)` guard. -/
def pyParseNameVal : GVal → Except String (String × String × String)
  | .str s => pyParseName s
  | _ => .ok ("", "", "")

/-! ## `PersonMatcher._parse_date` -/

/-- A Python `datetime.date` value. -/
structure PyDate where
  year : Nat
  month : Nat
  day : Nat
deriving DecidableEq, Repr

def isLeapYear (y : Nat) : Bool :=
  (y % 4 == 0 && y % 100 != 0) || y % 400 == 0

def daysInMonth (y m : Nat) : Nat :=
  if m = 2 then (if isLeapYear y then 29 else 28)
  else if m = 4 ∨ m = 6 ∨ m = 9 ∨ m = 11 then 30
  else 31

/-- The `datetime.date` constructor: raises `ValueError` outside the
supported ranges (`MINYEAR = 1`, so year 0 is rejected). -/
def mkPyDate (y m d : Nat) : Except String PyDate :=
  if 1 ≤ y ∧ y ≤ 9999 ∧ 1 ≤ m ∧ m ≤ 12 ∧ 1 ≤ d ∧ d ≤ daysInMonth y m
  then .ok ⟨y, m, d⟩
  else .error "date value out of range"

/-- Match a three-letter uppercase month abbreviation at the head of the
input, returning its number and the remaining input. -/
def matchMonth : List Char → Option (Nat × List Char)
  | 'J' :: 'A' :: 'N' :: r => some (1, r)
  | 'F' :: 'E' :: 'B' :: r => some (2, r)
  | 'M' :: 'A' :: 'R' :: r => some (3, r)
  | 'A' :: 'P' :: 'R' :: r => some (4, r)
  | 'M' :: 'A' :: 'Y' :: r => some (5, r)
  | 'J' :: 'U' :: 'N' :: r => some (6, r)
  | 'J' :: 'U' :: 'L' :: r => some (7, r)
  | 'A' :: 'U' :: 'G' :: r => some (8, r)
  | 'S' :: 'E' :: 'P' :: r => some (9, r)
  | 'O' :: 'C' :: 'T' :: r => some (10, r)
  | 'N' :: 'O' :: 'V' :: r => some (11, r)
  | 'D' :: 'E' :: 'C' :: r => some (12, r)
  | _ => none

/-- `\s+`: require at least one whitespace character and consume the run
(months and digits never begin with whitespace, so the maximal munch is
equivalent to the regex engine's backtracking). -/
def eatSpaces1 : List Char → Option (List Char)
  | c :: r => if isPySpace c then some (r.dropWhile isPySpace) else none
  | [] => none

/-- `(\d{4})` at the head of the input (anything may follow: `re.match`
only anchors the start). -/
def fourDigits : List Char → Option Nat
  | a :: b :: c :: d :: _ =>
    if isPyDigit a && isPyDigit b && isPyDigit c && isPyDigit d
    then some (1000 * digitVal a + 100 * digitVal b + 10 * digitVal c + digitVal d)
    else none
  | _ => none

/-- The `\s+(MON)\s+(\d{4})` tail of the `D[D] MON YYYY` pattern, after a
candidate day has been consumed. -/
def matchP1Tail (day : Nat) (rest : List Char) : Option (Nat × Nat × Nat) :=
  match eatSpaces1 rest with
  | none => none
  | some r1 =>
    match matchMonth r1 with
    | none => none
    | some (m, r2) =>
      match eatSpaces1 r2 with
      | none => none
      | some r3 =>
        match fourDigits r3 with
        | none => none
        | some y => some (day, m, y)

/-- `re.match` of `(\d{1,2})\s+(JAN|...|DEC)\s+(\d{4})`: the greedy
two-digit day is tried first, backtracking to one digit on failure.
Returns `(day, month, year)`. -/
def matchP1 : List Char → Option (Nat × Nat × Nat)
  | [] => none
  | a :: rest =>
    if isPyDigit a then
      match rest with
      | [] => none
      | b :: rest2 =>
        if isPyDigit b then
          match matchP1Tail (10 * digitVal a + digitVal b) rest2 with
          | some v => some v
          | none => matchP1Tail (digitVal a) (b :: rest2)
        else matchP1Tail (digitVal a) (b :: rest2)
    else none

/-- `re.match` of `(\d{4})`. -/
def matchP2 (l : List Char) : Option Nat := fourDigits l

/-- `(\d{1,2})/` at the head of the input: greedy two digits then a slash,
backtracking to one digit then a slash (a digit is never `/`, so the choice
is in fact forced). -/
def digitsSlash : List Char → Option (Nat × List Char)
  | [] => none
  | a :: rest =>
    if isPyDigit a then
      match rest with
      | [] => none
      | b :: rest2 =>
        if isPyDigit b then
          match rest2 with
          | '/' :: r3 => some (10 * digitVal a + digitVal b, r3)
          | _ => if b = '/' then some (digitVal a, rest2) else none
        else if b = '/' then some (digitVal a, rest2) else none
    else none

/-- `re.match` of `(\d{1,2})/(\d{1,2})/(\d{4})`, returning
`(month, day, year)` as the importer reads the groups. -/
def matchP3 (l : List Char) : Option (Nat × Nat × Nat) :=
  match digitsSlash l with
  | none => none
  | some (mo, r1) =>
    match digitsSlash r1 with
    | none => none
    | some (dy, r2) =>
      match fourDigits r2 with
      | none => none
      | some y => some (mo, dy, y)

/-- `date_str.upper()` as the character list the patterns are matched on. -/
def pyUpperStr (s : String) : List Char := s.data.map pyUpperChar

/-- `PersonMatcher._parse_date`: the empty string is falsy and returns
`None`; otherwise the three patterns are tried in order on the uppercased
string and the first match builds the date (`YYYY` alone becomes January 1);
no match returns `None`.  A constructed date outside `datetime.date`'s
ranges raises `ValueError`, modelled as `.error`. -/
def pyParseDate (s : String) : Except String (Option PyDate) :=
  if s = "" then .ok none
  else
    let u := pyUpperStr s
    match matchP1 u with
    | some (dy, mo, y) => (mkPyDate y mo dy).map some
    | none =>
      match matchP2 u with
      | some y => (mkPyDate y 1 1).map some
      | none =>
        match matchP3 u with
        | some (mo, dy, y) => (mkPyDate y mo dy).map some
        | none => .ok none

/-! ## `PersonMatcher` name/date matching -/

/-- The fixed curated nickname table of `PersonMatcher._is_nickname`. -/
def commonNicknames : List (String × List String) :=
  [("william", ["bill", "billy"]),
   ("robert", ["bob", "bobby"]),
   ("richard", ["dick", "rick"]),
   ("james", ["jim", "jimmy"]),
   ("joseph", ["joe", "joey"]),
   ("michael", ["mike", "mikey"]),
   ("christopher", ["chris"]),
   ("daniel", ["dan", "danny"]),
   ("matthew", ["matt"]),
   ("andrew", ["andy"]),
   ("jonathan", ["jon"]),
   ("benjamin", ["ben", "benny"]),
   ("nicholas", ["nick"]),
   ("alexander", ["alex"]),
   ("elizabeth", ["liz", "beth"]),
   ("margaret", ["maggie"]),
   ("patricia", ["pat"]),
   ("jennifer", ["jen"]),
   ("stephanie", ["steph"]),
   ("catherine", ["cathy"]),
   ("peter", ["pete"]),
   ("christina", ["tina"])]

/-- `PersonMatcher._is_nickname`: either name is a known nickname of the
other (both directions checked against every table entry). -/
def pyIsNickname (n1 n2 : String) : Bool :=
  commonNicknames.any (fun fn =>
    (n1 == fn.1 && fn.2.contains n2) || (n2 == fn.1 && fn.2.contains n1))

/-- `PersonMatcher._names_match`. -/
def pyNamesMatch (first1 middle1 last1 first2 middle2 last2 : String)
    (strict : Bool) : Bool :=
  let f1 := pyLowerStrip first1
  let f2 := pyLowerStrip first2
  let l1 := pyLowerStrip last1
  let l2 := pyLowerStrip last2
  -- middle names are accepted but never inspected, as in the source
  if f1 == "" || f2 == "" || l1 == "" || l2 == "" then false
  else if !(l1 == l2) then false
  else if f1 == f2 then true
  else if !strict then pyIsNickname f1 f2
  else false

def yearDiff (a b : Nat) : Nat := if b ≤ a then a - b else b - a

/-- `PersonMatcher._dates_match`. -/
def pyDatesMatch (d1 d2 : PyDate) (strict : Bool) : Bool :=
  if d1 == d2 then true
  else if strict then yearDiff d1.year d2.year == 0
  else decide (yearDiff d1.year d2.year ≤ 2)

/-- A stored person as the matcher sees it: primary key, the person's
linked names in relation order (`person.names.all()`), and
`person.birth` (`none` = no birth event, `some none` = birth event with a
null date). -/
structure PersonView where
  pid : Nat
  names : List (String × String × String)
  birth : Option (Option PyDate)
deriving DecidableEq, Repr

/-- The name loop of `PersonMatcher._is_match`: the first stored name whose
names match is accepted unless a birth-date comparison is available and
fails, in which case the loop continues with the next stored name. -/
def pyIsMatchNames (f m l : String) (bd : Option PyDate)
    (pbirth : Option (Option PyDate)) (strict : Bool) :
    List (String × String × String) → Bool
  | [] => false
  | n :: rest =>
    if pyNamesMatch f m l n.1 n.2.1 n.2.2 strict then
      match bd, pbirth with
      | some b, some (some pb) =>
        if !pyDatesMatch b pb strict then pyIsMatchNames f m l bd pbirth strict rest
        else true
      | _, _ => true
    else pyIsMatchNames f m l bd pbirth strict rest

/-- `PersonMatcher._is_match`. -/
def pyIsMatch (f m l : String) (bd : Option PyDate) (strict : Bool)
    (p : PersonView) : Bool :=
  pyIsMatchNames f m l bd p.birth strict p.names

/-- The `NAME` extraction of `find_matching_person`
(`gedcom_person.get('NAME', '')` coerced to `''` when not a string). -/
def matcherNameInfo (g : List (String × GVal)) : String :=
  match gvalGet g "NAME" with
  | some (.str s) => s
  | _ => ""

/-- The `BIRT` date extraction of `find_matching_person`: parse
`BIRT['DATE']` when `BIRT` is present as a dict, else no date. -/
def extractBirthDate (g : List (String × GVal)) : Except String (Option PyDate) :=
  match gvalGet g "BIRT" with
  | some (.dict d) => pyParseDate (dictGetD d "DATE" "")
  | _ => .ok none

/-- `PersonMatcher.find_matching_person`: an empty pool returns `None`
before any parsing; otherwise the incoming name and birth date are parsed
(either may raise) and the first pool member passing `_is_match` is
returned. -/
def findMatchingPerson (g : List (String × GVal)) (pool : List PersonView)
    (strict : Bool) : Except String (Option PersonView) :=
  if pool.isEmpty then .ok none
  else
    match pyParseName (matcherNameInfo g) with
    | .error e => .error e
    | .ok (f, m, l) =>
      match extractBirthDate g with
      | .error e => .error e
      | .ok bd => .ok (pool.find? (pyIsMatch f m l bd strict))

/-! ## The persistence store (`person/models.py`)

Rows of the Django models involved in the import, with an opaque numeric
primary key; each table is a list in insertion (primary-key) order, and a
single counter supplies fresh keys.  Model validation (`clean`) is not run
by `save`/`get_or_create` in Django and is therefore not modelled; the
custom `save` methods, which do run, are. -/

structure PersonRow where
  id : Nat
  gender : String
  isLiving : Bool
deriving DecidableEq, Repr

structure NameRow where
  id : Nat
  firstName : String
  middleName : String
  lastName : String
deriving DecidableEq, Repr

structure PersonNameRow where
  id : Nat
  personId : Nat
  nameId : Nat
  nameType : String
deriving DecidableEq, Repr

structure BirthRow where
  id : Nat
  personId : Nat
  date : Option PyDate
  location : String
deriving DecidableEq, Repr

structure DeathRow where
  id : Nat
  personId : Nat
  date : Option PyDate
  location : String
  cause : String
deriving DecidableEq, Repr

structure MarriageRow where
  id : Nat
  personId : Nat
  otherId : Nat
  date : Option PyDate
  location : String
  comment : String
  ended : Bool
deriving DecidableEq, Repr

structure DivorceRow where
  id : Nat
  personId : Nat
  otherId : Nat
  date : Option PyDate
  location : String
  comment : String
deriving DecidableEq, Repr

structure ImmigrationRow where
  id : Nat
  personId : Nat
  date : Option PyDate
  fromCountry : String
  toCountry : String
  location : String
deriving DecidableEq, Repr

structure CitizenshipRow where
  id : Nat
  personId : Nat
  date : Option PyDate
  country : String
  location : String
deriving DecidableEq, Repr

structure PCRRow where
  id : Nat
  parentId : Nat
  childId : Nat
deriving DecidableEq, Repr

structure DB where
  persons : List PersonRow
  names : List NameRow
  personNames : List PersonNameRow
  births : List BirthRow
  deaths : List DeathRow
  marriages : List MarriageRow
  divorces : List DivorceRow
  immigrations : List ImmigrationRow
  citizenships : List CitizenshipRow
  parentChild : List PCRRow
  nextId : Nat
deriving DecidableEq, Repr

def emptyDB : DB := ⟨[], [], [], [], [], [], [], [], [], [], 1⟩

/-- The matcher's view of a stored person: linked names in relation order
(`person.names.all()` through the `PersonName` join) and `person.birth`
(the person's first `BirthEvent`, unique per person by constraint). -/
def personView (db : DB) (pid : Nat) : PersonView :=
  { pid := pid
    names := (db.personNames.filter (fun pn => pn.personId == pid)).filterMap
      (fun pn => (db.names.find? (fun n => n.id == pn.nameId)).map
        (fun n => (n.firstName, n.middleName, n.lastName)))
    birth := (db.births.find? (fun b => b.personId == pid)).map (fun b => b.date) }

def updatePerson (db : DB) (pid : Nat) (f : PersonRow → PersonRow) : DB :=
  { db with persons := db.persons.map (fun p => if p.id == pid then f p else p) }

/-- The effect of `DeathEvent.save`: the person is marked no longer living. -/
def setNotLiving (db : DB) (pid : Nat) : DB :=
  updatePerson db pid (fun p => { p with isLiving := false })

/-- `Person.objects.create()` (the custom `Person.save` does nothing extra
for a fresh person without a death event). -/
def personCreate (db : DB) : DB × Nat :=
  ({ db with persons := db.persons ++ [⟨db.nextId, "U", true⟩],
             nextId := db.nextId + 1 }, db.nextId)

def marriageExists (db : DB) (p o : Nat) (d : Option PyDate) : Bool :=
  db.marriages.any (fun r => r.personId == p && r.otherId == o && r.date == d)

def divorceExists (db : DB) (p o : Nat) (d : Option PyDate) : Bool :=
  db.divorces.any (fun r => r.personId == p && r.otherId == o && r.date == d)

/-- Saving a new `MarriageEvent(person=p, other_person=o, date=d, ...)`:
`CoupleEvent.save` inserts the row and then find-or-creates the symmetric
row keyed `(o, p, d)` with the same location and comment; the symmetric
row's own recursive save finds the original and stops, and the
`not is_new` synchronisation branch does not apply to a new row. -/
def marriageSaveNew (db : DB) (p o : Nat) (d : Option PyDate) (loc cmt : String) : DB :=
  let db1 := { db with
    marriages := db.marriages ++ [⟨db.nextId, p, o, d, loc, cmt, false⟩],
    nextId := db.nextId + 1 }
  if marriageExists db1 o p d then db1
  else { db1 with
    marriages := db1.marriages ++ [⟨db1.nextId, o, p, d, loc, cmt, false⟩],
    nextId := db1.nextId + 1 }

/-- `DivorceEvent.save`'s closing of marriages: both filtered updates
(`person=p, other_person=o` and `person=o, other_person=p`, each restricted
to `ended=False`) set `ended=True`; the combined effect marks every
marriage between the couple, in either direction, as ended. -/
def endMarriages (db : DB) (p o : Nat) : DB :=
  { db with marriages := db.marriages.map (fun r =>
      if (r.personId == p && r.otherId == o) || (r.personId == o && r.otherId == p)
      then { r with ended := true } else r) }

/-- Saving a new `DivorceEvent(person=p, other_person=o, date=d, ...)`:
the `CoupleEvent` part inserts the row and find-or-creates its mirror
(whose own recursive save already closes the couple's marriages), then
the marriage-closing updates run; the net effect on the final state is as
below. -/
def divorceSaveNew (db : DB) (p o : Nat) (d : Option PyDate) (loc cmt : String) : DB :=
  let db1 := { db with
    divorces := db.divorces ++ [⟨db.nextId, p, o, d, loc, cmt⟩],
    nextId := db.nextId + 1 }
  let db2 :=
    if divorceExists db1 o p d then db1
    else { db1 with
      divorces := db1.divorces ++ [⟨db1.nextId, o, p, d, loc, cmt⟩],
      nextId := db1.nextId + 1 }
  endMarriages db2 p o

/-! `get_or_create` helpers.  Django's `get_or_create` fetches by the given
lookup and creates with the defaults when nothing is found; the lookups
used by the importer target unique or effectively-unique keys, so the
`MultipleObjectsReturned` corner is modelled as first-match. -/

def nameGetOrCreate (db : DB) (f m l : String) : DB × Nat × Bool :=
  match db.names.find? (fun n =>
      n.firstName == f && n.middleName == m && n.lastName == l) with
  | some n => (db, n.id, false)
  | none =>
    ({ db with names := db.names ++ [⟨db.nextId, f, m, l⟩],
               nextId := db.nextId + 1 }, db.nextId, true)

def personNameGetOrCreate (db : DB) (pid nid : Nat) : DB × Bool :=
  match db.personNames.find? (fun pn => pn.personId == pid && pn.nameId == nid) with
  | some _ => (db, false)
  | none =>
    ({ db with
        personNames := db.personNames ++ [⟨db.nextId, pid, nid, "other"⟩],
        nextId := db.nextId + 1 }, true)

def birthGetOrCreate (db : DB) (pid : Nat) (d : Option PyDate) (loc : String) :
    DB × Bool :=
  match db.births.find? (fun b => b.personId == pid) with
  | some _ => (db, false)
  | none =>
    ({ db with births := db.births ++ [⟨db.nextId, pid, d, loc⟩],
               nextId := db.nextId + 1 }, true)

def deathGetOrCreate (db : DB) (pid : Nat) (d : Option PyDate) (loc cause : String) :
    DB × Bool :=
  match db.deaths.find? (fun e => e.personId == pid) with
  | some _ => (db, false)
  | none =>
    ({ db with deaths := db.deaths ++ [⟨db.nextId, pid, d, loc, cause⟩],
               nextId := db.nextId + 1 }, true)

def immigrationGetOrCreateDated (db : DB) (pid : Nat) (d : PyDate)
    (fromC toC loc : String) : DB × Bool :=
  match db.immigrations.find? (fun e => e.personId == pid && e.date == some d) with
  | some _ => (db, false)
  | none => ({ db with
      immigrations := db.immigrations ++ [⟨db.nextId, pid, some d, fromC, toC, loc⟩],
      nextId := db.nextId + 1 }, true)

def immigrationGetOrCreateUndated (db : DB) (pid : Nat)
    (fromC toC loc : String) : DB × Bool :=
  match db.immigrations.find? (fun e => e.personId == pid) with
  | some _ => (db, false)
  | none => ({ db with
      immigrations := db.immigrations ++ [⟨db.nextId, pid, none, fromC, toC, loc⟩],
      nextId := db.nextId + 1 }, true)

def citizenshipGetOrCreateDated (db : DB) (pid : Nat) (d : PyDate)
    (country loc : String) : DB × Bool :=
  match db.citizenships.find? (fun e => e.personId == pid && e.date == some d) with
  | some _ => (db, false)
  | none => ({ db with
      citizenships := db.citizenships ++ [⟨db.nextId, pid, some d, country, loc⟩],
      nextId := db.nextId + 1 }, true)

def citizenshipGetOrCreateUndated (db : DB) (pid : Nat)
    (country loc : String) : DB × Bool :=
  match db.citizenships.find? (fun e => e.personId == pid) with
  | some _ => (db, false)
  | none => ({ db with
      citizenships := db.citizenships ++ [⟨db.nextId, pid, none, country, loc⟩],
      nextId := db.nextId + 1 }, true)

/-- `ParentChildRelationship.objects.get_or_create(parent=..., child=...)`;
the custom save's many-to-many synchronisation writes through the same
through-table and adds nothing beyond the row itself. -/
def pcrGetOrCreate (db : DB) (parent child : Nat) : DB × Bool :=
  match db.parentChild.find? (fun r => r.parentId == parent && r.childId == child) with
  | some _ => (db, false)
  | none =>
    ({ db with
        parentChild := db.parentChild ++ [⟨db.nextId, parent, child⟩],
        nextId := db.nextId + 1 }, true)

/-! ## The import orchestrator (`GEDCOMImporter`) -/

/-- The run statistics dictionary of `GEDCOMImporter`. -/
structure Stats where
  individualsCreated : Nat
  individualsUpdated : Nat
  familiesCreated : Nat
  relationshipsCreated : Nat
  eventsCreated : Nat
  namesCreated : Nat
  namesLinked : Nat
  errors : List String
deriving DecidableEq, Repr

def initStats : Stats := ⟨0, 0, 0, 0, 0, 0, 0, []⟩

def Stats.incEvents (s : Stats) : Stats :=
  { s with eventsCreated := s.eventsCreated + 1 }

def Stats.incRel (s : Stats) : Stats :=
  { s with relationshipsCreated := s.relationshipsCreated + 1 }

/-- Importer configuration flags. -/
structure ImpCfg where
  pretend : Bool
  strict : Bool
deriving DecidableEq, Repr

/-- The person a GEDCOM id resolved to: a persisted `Person` in real mode,
or the `MockPerson` stand-in fabricated in pretend mode. -/
inductive PersonRef where
  | real (pid : Nat)
  | mock (gid : String)
deriving DecidableEq, Repr

/-- Primary key of a resolved person.  Pretend mode performs no database
operation, so `.mock` never reaches a database write and the fallback value
is irrelevant. -/
def PersonRef.refId : PersonRef → Nat
  | .real i => i
  | .mock _ => 0

/-- A parsed GEDCOM record: its xref (a level-0 line without an `@...@`
field stores the record under the `None` key), its type and its data
dictionary. -/
structure GRecord where
  gid : Option String
  rtype : String
  rdata : List (String × GVal)
deriving DecidableEq, Repr

/-- `f"{gedcom_id}"` where the id may be Python `None`. -/
def renderOptId : Option String → String
  | some s => s
  | none => "None"

/-- A step of the importer that can raise: the partially updated state is
kept (there is no enclosing transaction in `import_gedcom`), together with
the outcome. -/
def stepBind (r : DB × Stats × Except String Unit)
    (f : DB → Stats → DB × Stats × Except String Unit) :
    DB × Stats × Except String Unit :=
  match r with
  | (db, st, .ok _) => f db st
  | (db, st, .error e) => (db, st, .error e)

/-- `'TAG' in data` followed by the `isinstance(..., dict) else {}`
coercion: `none` when the tag is absent, otherwise the sub-mapping (an
empty one for a non-dict value). -/
def subMap (data : List (String × GVal)) (tag : String) :
    Option (List (String × String)) :=
  match gvalGet data tag with
  | some (.dict d) => some d
  | some _ => some []
  | none => none

/-- The `BIRT` block of `GEDCOMImporter._import_events`. -/
def importBirth (pretend : Bool) (person : PersonRef)
    (data : List (String × GVal)) (db : DB) (stats : Stats) :
    DB × Stats × Except String Unit :=
  match subMap data "BIRT" with
  | none => (db, stats, .ok ())
  | some bd =>
    match pyParseDate (dictGetD bd "DATE" "") with
    | .error e => (db, stats, .error e)
    | .ok dOpt =>
      let loc := dictGetD bd "PLAC" ""
      match dOpt with
      | some d =>
        if pretend then (db, stats.incEvents, .ok ())
        else
          let r := birthGetOrCreate db person.refId (some d) loc
          (r.1, if r.2 then stats.incEvents else stats, .ok ())
      | none =>
        if loc != "" then
          if pretend then (db, stats.incEvents, .ok ())
          else
            let r := birthGetOrCreate db person.refId none loc
            (r.1, if r.2 then stats.incEvents else stats, .ok ())
        else (db, stats, .ok ())

/-- The `DEAT` block of `_import_events`; a created `DeathEvent`'s save
marks the person as no longer living. -/
def importDeath (pretend : Bool) (person : PersonRef)
    (data : List (String × GVal)) (db : DB) (stats : Stats) :
    DB × Stats × Except String Unit :=
  match subMap data "DEAT" with
  | none => (db, stats, .ok ())
  | some dd =>
    match pyParseDate (dictGetD dd "DATE" "") with
    | .error e => (db, stats, .error e)
    | .ok dOpt =>
      let loc := dictGetD dd "PLAC" ""
      let cause := dictGetD dd "CAUS" ""
      match dOpt with
      | some d =>
        if pretend then (db, stats.incEvents, .ok ())
        else
          let r := deathGetOrCreate db person.refId (some d) loc cause
          let db3 := if r.2 then setNotLiving r.1 person.refId else r.1
          (db3, if r.2 then stats.incEvents else stats, .ok ())
      | none =>
        if loc != "" || cause != "" then
          if pretend then (db, stats.incEvents, .ok ())
          else
            let r := deathGetOrCreate db person.refId none loc cause
            let db3 := if r.2 then setNotLiving r.1 person.refId else r.1
            (db3, if r.2 then stats.incEvents else stats, .ok ())
        else (db, stats, .ok ())

/-- The `IMMI` block of `_import_events`: `PLAC` is the destination,
`PLAC_FROM` the origin; a dated event is keyed by `(person, date)`, an
undated one by `person`. -/
def importImmi (pretend : Bool) (person : PersonRef)
    (data : List (String × GVal)) (db : DB) (stats : Stats) :
    DB × Stats × Except String Unit :=
  match subMap data "IMMI" with
  | none => (db, stats, .ok ())
  | some idta =>
    match pyParseDate (dictGetD idta "DATE" "") with
    | .error e => (db, stats, .error e)
    | .ok dOpt =>
      let loc := dictGetD idta "PLAC" ""
      let fromPlace := dictGetD idta "PLAC_FROM" ""
      match dOpt with
      | some d =>
        if pretend then (db, stats.incEvents, .ok ())
        else
          let r := immigrationGetOrCreateDated db person.refId d fromPlace loc loc
          (r.1, if r.2 then stats.incEvents else stats, .ok ())
      | none =>
        if loc != "" || fromPlace != "" then
          if pretend then (db, stats.incEvents, .ok ())
          else
            let r := immigrationGetOrCreateUndated db person.refId fromPlace loc loc
            (r.1, if r.2 then stats.incEvents else stats, .ok ())
        else (db, stats, .ok ())

/-- The `EMIG` block of `_import_events`: an emigration also records an
`ImmigrationEvent`, with `PLAC` as the origin and `PLAC_TO` the
destination. -/
def importEmig (pretend : Bool) (person : PersonRef)
    (data : List (String × GVal)) (db : DB) (stats : Stats) :
    DB × Stats × Except String Unit :=
  match subMap data "EMIG" with
  | none => (db, stats, .ok ())
  | some ed =>
    match pyParseDate (dictGetD ed "DATE" "") with
    | .error e => (db, stats, .error e)
    | .ok dOpt =>
      let loc := dictGetD ed "PLAC" ""
      let toPlace := dictGetD ed "PLAC_TO" ""
      match dOpt with
      | some d =>
        if pretend then (db, stats.incEvents, .ok ())
        else
          let r := immigrationGetOrCreateDated db person.refId d loc toPlace loc
          (r.1, if r.2 then stats.incEvents else stats, .ok ())
      | none =>
        if loc != "" || toPlace != "" then
          if pretend then (db, stats.incEvents, .ok ())
          else
            let r := immigrationGetOrCreateUndated db person.refId loc toPlace loc
            (r.1, if r.2 then stats.incEvents else stats, .ok ())
        else (db, stats, .ok ())

/-- The `NATU` (citizenship) block of `_import_events`. -/
def importNatu (pretend : Bool) (person : PersonRef)
    (data : List (String × GVal)) (db : DB) (stats : Stats) :
    DB × Stats × Except String Unit :=
  match subMap data "NATU" with
  | none => (db, stats, .ok ())
  | some nd =>
    match pyParseDate (dictGetD nd "DATE" "") with
    | .error e => (db, stats, .error e)
    | .ok dOpt =>
      let loc := dictGetD nd "PLAC" ""
      match dOpt with
      | some d =>
        if pretend then (db, stats.incEvents, .ok ())
        else
          let r := citizenshipGetOrCreateDated db person.refId d loc loc
          (r.1, if r.2 then stats.incEvents else stats, .ok ())
      | none =>
        if loc != "" then
          if pretend then (db, stats.incEvents, .ok ())
          else
            let r := citizenshipGetOrCreateUndated db person.refId loc loc
            (r.1, if r.2 then stats.incEvents else stats, .ok ())
        else (db, stats, .ok ())

/-- `GEDCOMImporter._import_events`: the five blocks in source order; an
exception in one block keeps the earlier blocks' writes and skips the
rest. -/
def importEvents (pretend : Bool) (person : PersonRef)
    (data : List (String × GVal)) (db : DB) (stats : Stats) :
    DB × Stats × Except String Unit :=
  stepBind (importBirth pretend person data db stats) (fun db1 st1 =>
    stepBind (importDeath pretend person data db1 st1) (fun db2 st2 =>
      stepBind (importImmi pretend person data db2 st2) (fun db3 st3 =>
        stepBind (importEmig pretend person data db3 st3) (fun db4 st4 =>
          importNatu pretend person data db4 st4))))

def genderFromSex (sex : String) : String :=
  if sex == "M" then "M" else if sex == "F" then "F" else "U"

/-- `GEDCOMImporter._import_gender` (the parser only ever stores `SEX` as a
string, so the non-string corner is read as the absent default). -/
def importGender (pretend : Bool) (person : PersonRef)
    (data : List (String × GVal)) (db : DB) : DB :=
  let sex := match gvalGet data "SEX" with | some (.str s) => s | _ => ""
  if sex == "" then db
  else if pretend then db
  else updatePerson db person.refId (fun p => { p with gender := genderFromSex sex })

/-- The reuse-or-create step of `_import_individual`: a matched person is
reused (counted as updated), otherwise a person is created — a mock
stand-in in pretend mode, a stored row in real mode (counted as
created). -/
def importPersonStep (pretend : Bool) (gid : Option String)
    (matched : Option PersonView) (db : DB) (stats : Stats) :
    DB × Stats × PersonRef :=
  match matched with
  | some pv =>
    (db, { stats with individualsUpdated := stats.individualsUpdated + 1 },
     PersonRef.real pv.pid)
  | none =>
    if pretend then
      (db, { stats with individualsCreated := stats.individualsCreated + 1 },
       PersonRef.mock ("mock_" ++ renderOptId gid))
    else
      let rc := personCreate db
      (rc.1, { stats with individualsCreated := stats.individualsCreated + 1 },
       PersonRef.real rc.2)

/-- The name handling step of `_import_individual`: find-or-create the
`Name` by value and the `PersonName` link (created links get type
`OTHER`); in pretend mode only the counters move. -/
def importNameStep (pretend : Bool) (person : PersonRef) (f m l : String)
    (db : DB) (stats : Stats) : DB × Stats :=
  if pretend then
    (db, { stats with namesCreated := stats.namesCreated + 1,
                      namesLinked := stats.namesLinked + 1 })
  else
    let rn := nameGetOrCreate db f m l
    let statsA := if rn.2.2
      then { stats with namesCreated := stats.namesCreated + 1 } else stats
    let rl := personNameGetOrCreate rn.1 person.refId rn.2.1
    (rl.1, if rl.2
      then { statsA with namesLinked := statsA.namesLinked + 1 } else statsA)

/-- The events-and-gender tail of `_import_individual`: import the
person's events (keeping partial writes on an exception) and then the
gender, returning the resolved person. -/
def importIndividualTail (pretend : Bool) (person : PersonRef)
    (data : List (String × GVal)) (db : DB) (stats : Stats) :
    DB × Stats × Except String (Option PersonRef) :=
  match importEvents pretend person data db stats with
  | (db4, stats4, .error e) => (db4, stats4, .error e)
  | (db4, stats4, .ok _) =>
    (importGender pretend person data db4, stats4, .ok (some person))

/-- `GEDCOMImporter._import_individual`: parse the name, skip the record
when both first and last name are empty, match against the accumulating
pool, reuse or create the person, find-or-create the name and its link,
then import events and gender.  Raising anywhere keeps the writes already
performed. -/
def importIndividual (cfg : ImpCfg) (indiv : GRecord) (existing : List Nat)
    (db : DB) (stats : Stats) : DB × Stats × Except String (Option PersonRef) :=
  let data := indiv.rdata
  match pyParseName (matcherNameInfo data) with
  | .error e => (db, stats, .error e)
  | .ok (f, m, l) =>
    if f == "" && l == "" then (db, stats, .ok none)
    else
      match findMatchingPerson data (existing.map (personView db)) cfg.strict with
      | .error e => (db, stats, .error e)
      | .ok matched =>
        let res1 := importPersonStep cfg.pretend indiv.gid matched db stats
        let person := res1.2.2
        let res2 := importNameStep cfg.pretend person f m l res1.1 res1.2.1
        importIndividualTail cfg.pretend person data res2.1 res2.2

/-- The run's GEDCOM-id-to-person map. -/
def pmapLookup (pmap : List (Option String × PersonRef)) (k : Option String) :
    Option PersonRef :=
  (pmap.find? (fun kv => kv.1 == k)).map (fun kv => kv.2)

def pmapSet (pmap : List (Option String × PersonRef)) (k : Option String)
    (v : PersonRef) : List (Option String × PersonRef) :=
  if pmap.any (fun kv => kv.1 == k)
  then pmap.map (fun kv => if kv.1 == k then (k, v) else kv)
  else pmap ++ [(k, v)]

def GVal.truthy : GVal → Bool
  | .str s => s != ""
  | .dict d => !d.isEmpty
  | .vals l => !l.isEmpty

/-- The husband/wife id extraction of `_import_family`
(`data.get(tag, [''])[0] if isinstance(data.get(tag), list) else
data.get(tag, '')`); an empty stored list raises `IndexError` and a dict
value raises when used as a lookup key. -/
def famMemberId (data : List (String × GVal)) (tag : String) :
    Except String String :=
  match gvalGet data tag with
  | some (.vals []) => .error "list index out of range"
  | some (.vals (h :: _)) => .ok h
  | some (.str s) => .ok s
  | some (.dict _) => .error "unhashable type"
  | none => .ok ""

/-- The children-id extraction of `_import_family`: a stored list is used
as is; a truthy non-list value is wrapped in a singleton; otherwise no
children. -/
def famChildren (data : List (String × GVal)) : List GVal :=
  match gvalGet data "CHIL" with
  | some (.vals l) => l.map GVal.str
  | some v => if v.truthy then [v] else []
  | none => []

/-- The marriage block of `_import_family` (both spouses resolved).  With a
parsed date, a marriage is created only when neither direction already has
one on that date; with only a location, `get_or_create` is keyed by the
couple alone but the `events_created` counter is incremented whether or not
a row was created, as in the source. -/
def marrDict (data : List (String × GVal)) : List (String × String) :=
  match gvalGet data "MARR" with | some (.dict d) => d | _ => []

def divDict (data : List (String × GVal)) : List (String × String) :=
  match gvalGet data "DIV" with | some (.dict d) => d | _ => []

def importMarriage (pretend : Bool) (h w : Nat) (data : List (String × GVal))
    (db : DB) (stats : Stats) : DB × Stats × Except String Unit :=
  let md := marrDict data
  match pyParseDate (dictGetD md "DATE" "") with
  | .error e => (db, stats, .error e)
  | .ok dOpt =>
    let loc := dictGetD md "PLAC" ""
    match dOpt with
    | some d =>
      if pretend then (db, stats.incEvents, .ok ())
      else
        if !marriageExists db h w (some d) && !marriageExists db w h (some d) then
          (marriageSaveNew db h w (some d) loc "", stats.incEvents, .ok ())
        else (db, stats, .ok ())
    | none =>
      if loc != "" then
        if pretend then (db, stats.incEvents, .ok ())
        else
          let db2 :=
            match db.marriages.find? (fun r => r.personId == h && r.otherId == w) with
            | some _ => db
            | none => marriageSaveNew db h w none loc ""
          (db2, stats.incEvents, .ok ())
      else (db, stats, .ok ())

/-- The divorce block of `_import_family`, mirroring the marriage block;
a created divorce's save closes the couple's marriages. -/
def importDivorce (pretend : Bool) (h w : Nat) (data : List (String × GVal))
    (db : DB) (stats : Stats) : DB × Stats × Except String Unit :=
  let dd := divDict data
  match pyParseDate (dictGetD dd "DATE" "") with
  | .error e => (db, stats, .error e)
  | .ok dOpt =>
    let loc := dictGetD dd "PLAC" ""
    match dOpt with
    | some d =>
      if pretend then (db, stats.incEvents, .ok ())
      else
        if !divorceExists db h w (some d) && !divorceExists db w h (some d) then
          (divorceSaveNew db h w (some d) loc "", stats.incEvents, .ok ())
        else (db, stats, .ok ())
    | none =>
      if loc != "" then
        if pretend then (db, stats.incEvents, .ok ())
        else
          let db2 :=
            match db.divorces.find? (fun r => r.personId == h && r.otherId == w) with
            | some _ => db
            | none => divorceSaveNew db h w none loc ""
          (db2, stats.incEvents, .ok ())
      else (db, stats, .ok ())

/-- The children loop of `_import_family` (reached only with both spouses
resolved): each truthy child id that resolves through the map gets a
find-or-created link from the husband and from the wife (in pretend mode a
single counter bump per child); unresolved or empty ids only produce a
warning. -/
def importChildLinks (pretend : Bool) (h w : Nat)
    (pmap : List (Option String × PersonRef)) (db : DB) (stats : Stats) :
    List GVal → DB × Stats × Except String Unit
  | [] => (db, stats, .ok ())
  | cv :: rest =>
    if cv.truthy then
      match cv with
      | .str cid =>
        match pmapLookup pmap (some cid) with
        | some childRef =>
          if pretend then
            importChildLinks pretend h w pmap db stats.incRel rest
          else
            let rA := pcrGetOrCreate db h childRef.refId
            let stA := if rA.2 then stats.incRel else stats
            let rB := pcrGetOrCreate rA.1 w childRef.refId
            let stB := if rB.2 then stA.incRel else stA
            importChildLinks pretend h w pmap rB.1 stB rest
        | none => importChildLinks pretend h w pmap db stats rest
      | _ => (db, stats, .error "unhashable type")
    else importChildLinks pretend h w pmap db stats rest

/-- `GEDCOMImporter._import_family`: resolve the spouses; with both
resolved run the marriage, divorce and children blocks in order; otherwise
only warn. -/
def importFamily (cfg : ImpCfg) (fam : GRecord)
    (pmap : List (Option String × PersonRef)) (db : DB) (stats : Stats) :
    DB × Stats × Except String Unit :=
  let data := fam.rdata
  match famMemberId data "HUSB" with
  | .error e => (db, stats, .error e)
  | .ok hid =>
    match famMemberId data "WIFE" with
    | .error e => (db, stats, .error e)
    | .ok wid =>
      match pmapLookup pmap (some hid), pmapLookup pmap (some wid) with
      | some hRef, some wRef =>
        stepBind (importMarriage cfg.pretend hRef.refId wRef.refId data db stats)
          (fun db1 st1 =>
            stepBind (importDivorce cfg.pretend hRef.refId wRef.refId data db1 st1)
              (fun db2 st2 =>
                importChildLinks cfg.pretend hRef.refId wRef.refId pmap db2 st2
                  (famChildren data)))
      | _, _ => (db, stats, .ok ())

/-! ## `GEDCOMParser` -/

/-- Split off the text before the first space (`str.split(' ', ...)`'s
single step): `none` when there is no space. -/
def breakAtSpace : List Char → Option (List Char × List Char)
  | [] => none
  | c :: rest =>
    if c = ' ' then some ([], rest)
    else (breakAtSpace rest).map (fun p => (c :: p.1, p.2))

/-- `line.split(' ', 2)`: at most two splits on the single space
character (consecutive spaces produce empty fields). -/
def splitSpaceMax2 (s : String) : List String :=
  match breakAtSpace s.data with
  | none => [s]
  | some (a, r1) =>
    match breakAtSpace r1 with
    | none => [String.mk a, String.mk r1]
    | some (b, r2) => [String.mk a, String.mk b, String.mk r2]

def natOfDigits (l : List Char) : Nat := l.foldl (fun n c => 10 * n + digitVal c) 0

/-- Python `int(s)`: optional surrounding whitespace and sign followed by
at least one digit; anything else raises `ValueError` (`none` here; digit
grouping underscores do not occur in GEDCOM level fields). -/
def pyParseIntOpt (s : String) : Option Int :=
  match stripChars s.data with
  | '+' :: ds => if !ds.isEmpty && ds.all isPyDigit then some (natOfDigits ds : Int) else none
  | '-' :: ds => if !ds.isEmpty && ds.all isPyDigit then some (-(natOfDigits ds : Int)) else none
  | ds => if !ds.isEmpty && ds.all isPyDigit then some (natOfDigits ds : Int) else none

def lastChar : List Char → Option Char
  | [] => none
  | [c] => some c
  | _ :: c :: rest => lastChar (c :: rest)

/-- `tag_or_id.startswith('@') and tag_or_id.endswith('@')` (a single `@`
satisfies both). -/
def isXref (s : String) : Bool :=
  match s.data with
  | [] => false
  | c :: rest => c == '@' && (lastChar (c :: rest) == some '@')

/-- Parser state: the two insertion-ordered record maps and the currently
open record (`(is-individual, xref)`), if any. -/
structure ParserSt where
  individuals : List GRecord
  families : List GRecord
  current : Option (Bool × Option String)
deriving DecidableEq, Repr

/-- Dict assignment on a record map: overwriting a key keeps its insertion
position; a new key is appended. -/
def assocSetRecord (l : List GRecord) (r : GRecord) : List GRecord :=
  if l.any (fun x => x.gid == r.gid)
  then l.map (fun x => if x.gid == r.gid then r else x)
  else l ++ [r]

def assocUpdateRecord (l : List GRecord) (gid : Option String)
    (f : GRecord → GRecord) : List GRecord :=
  l.map (fun x => if x.gid == gid then f x else x)

/-- Dict assignment on a record's data mapping. -/
def assocSetVal (d : List (String × GVal)) (k : String) (v : GVal) :
    List (String × GVal) :=
  if d.any (fun kv => kv.1 == k)
  then d.map (fun kv => if kv.1 == k then (k, v) else kv)
  else d ++ [(k, v)]

def parserListTags : List String := ["CHIL", "HUSB", "WIFE"]

def parserSubTags : List String := ["BIRT", "DEAT", "MARR", "DIV", "EMIG", "IMMI", "NATU"]

/-- A level-1 line under an open record: multi-value tags accumulate (the
value is only ever a list, since only this branch writes those tags),
event tags open an empty sub-mapping, anything else stores the value
(last write wins). -/
def dataLevel1 (d : List (String × GVal)) (tag value : String) :
    List (String × GVal) :=
  if parserListTags.contains tag then
    let cur := match gvalGet d tag with | some (.vals l) => l | _ => []
    assocSetVal d tag (.vals (cur ++ [value]))
  else if parserSubTags.contains tag then assocSetVal d tag (.dict [])
  else assocSetVal d tag (.str value)

/-- The most recent level-1 tag holding a sub-mapping: the record's keys
scanned in reverse insertion order. -/
def findDictParent (d : List (String × GVal)) : Option String :=
  (d.reverse.find? (fun kv => match kv.2 with | .dict _ => true | _ => false)).map
    (fun kv => kv.1)

/-- A level-2/3 line: attach `tag = value` to the most recent sub-mapping,
first occurrence winning. -/
def dataSetDefaultSub (d : List (String × GVal)) (parent tag value : String) :
    List (String × GVal) :=
  d.map (fun kv =>
    if kv.1 == parent then
      match kv.2 with
      | .dict sub =>
        if sub.any (fun e => e.1 == tag) then kv
        else (kv.1, .dict (sub ++ [(tag, value)]))
      | _ => kv
    else kv)

def updCurrent (st : ParserSt) (isIndi : Bool) (cid : Option String)
    (f : List (String × GVal) → List (String × GVal)) : ParserSt :=
  let upd := fun (l : List GRecord) =>
    assocUpdateRecord l cid (fun r => { r with rdata := f r.rdata })
  if isIndi then { st with individuals := upd st.individuals }
  else { st with families := upd st.families }

/-- `GEDCOMParser._parse_line` on an already-stripped nonempty line.  A
non-numeric level raises `ValueError`, which `parse` catches with a
warning and skips the line (state unchanged); levels other than 0–3, or
levels above 0 with no open record, do nothing. -/
def parseGedcomLine (st : ParserSt) (line : String) : ParserSt :=
  match splitSpaceMax2 line with
  | [] => st
  | [_] => st
  | p0 :: tagOrId :: restParts =>
    match pyParseIntOpt p0 with
    | none => st
    | some level =>
      let value0 := restParts.headD ""
      let recordId : Option String := if isXref tagOrId then some tagOrId else none
      let tag := if isXref tagOrId then value0 else tagOrId
      let value := value0
      if level == 0 then
        if tag == "INDI" then
          { st with individuals := assocSetRecord st.individuals ⟨recordId, "INDI", []⟩,
                    current := some (true, recordId) }
        else if tag == "FAM" then
          { st with families := assocSetRecord st.families ⟨recordId, "FAM", []⟩,
                    current := some (false, recordId) }
        else { st with current := none }
      else
        match st.current with
        | none => st
        | some (isIndi, cid) =>
          if level == 1 then updCurrent st isIndi cid (fun d => dataLevel1 d tag value)
          else if level == 2 || level == 3 then
            updCurrent st isIndi cid (fun d =>
              match findDictParent d with
              | some parent => dataSetDefaultSub d parent tag value
              | none => d)
          else st

/-- `GEDCOMParser.parse` over the file's lines: each line is stripped,
blank lines are skipped, per-line errors only warn. -/
def parseGedcom (lines : List String) : List GRecord × List GRecord :=
  let final := lines.foldl (fun st line =>
    let l := pyStrip line
    if l == "" then st else parseGedcomLine st l) ⟨[], [], none⟩
  (final.individuals, final.families)

/-! ## `GEDCOMImporter.import_gedcom` -/

/-- Loop state of the individuals pass: the store, the statistics, the
accumulating candidate pool and the GEDCOM-id-to-person map. -/
structure IndLoopSt where
  db : DB
  stats : Stats
  existing : List Nat
  pmap : List (Option String × PersonRef)
deriving DecidableEq, Repr

/-- One iteration of the individuals loop, with its `try/except`: an
exception is recorded with the record's GEDCOM id and processing
continues. -/
def importIndividualStep (cfg : ImpCfg) (acc : IndLoopSt) (ind : GRecord) :
    IndLoopSt :=
  match importIndividual cfg ind acc.existing acc.db acc.stats with
  | (db1, st1, .ok (some person)) =>
    let pmap1 := pmapSet acc.pmap ind.gid person
    let existing1 :=
      if !cfg.pretend then
        match person with
        | .real pid => if acc.existing.contains pid then acc.existing
                       else acc.existing ++ [pid]
        | .mock _ => acc.existing
      else acc.existing
    ⟨db1, st1, existing1, pmap1⟩
  | (db1, st1, .ok none) => ⟨db1, st1, acc.existing, acc.pmap⟩
  | (db1, st1, .error e) =>
    ⟨db1, { st1 with errors := st1.errors ++
        ["Error importing individual " ++ renderOptId ind.gid ++ ": " ++ e] },
     acc.existing, acc.pmap⟩

/-- One iteration of the families loop, with its `try/except`. -/
def importFamilyStep (cfg : ImpCfg) (pmap : List (Option String × PersonRef))
    (acc : DB × Stats) (fam : GRecord) : DB × Stats :=
  match importFamily cfg fam pmap acc.1 acc.2 with
  | (db1, st1, .ok _) => (db1, st1)
  | (db1, st1, .error e) =>
    (db1, { st1 with errors := st1.errors ++
        ["Error importing family " ++ renderOptId fam.gid ++ ": " ++ e] })

/-- `GEDCOMImporter.import_gedcom` after the file has been read: parse,
seed the candidate pool with every stored person, import the individuals
and then the families, each record in its own `try/except`.  A fresh
run's statistics start at zero. -/
def importGedcom (cfg : ImpCfg) (lines : List String) (db : DB) : DB × Stats :=
  let parsed := parseGedcom lines
  let afterInd := parsed.1.foldl (importIndividualStep cfg)
    ⟨db, initStats, db.persons.map (fun p => p.id), []⟩
  parsed.2.foldl (importFamilyStep cfg afterInd.pmap) (afterInd.db, afterInd.stats)

/-- The import entry point: a missing input file raises `CommandError`
before anything is parsed or written; otherwise the run always completes
with a summary. -/
def runImport (file : Option (List String)) (cfg : ImpCfg) (db : DB) :
    Except String (DB × Stats) :=
  match file with
  | none => .error "File not found"
  | some lines => .ok (importGedcom cfg lines db)

/-! ## Definitions used by the claim statements -/

/-- Transcription of claim C4's name rule, written from the claim's words:
last names equal case-insensitively, first names equal case-insensitively
or (lenient only) a nickname pair in the fixed curated table checked in
both directions, and an empty (after normalization) first or last name on
either side never matches.  To be proved equivalent to the code's
`_names_match`. -/
def claimNameMatches (pf pl nf nl : String) (strict : Bool) : Bool :=
  let f1 := pyLowerStrip pf
  let f2 := pyLowerStrip nf
  let l1 := pyLowerStrip pl
  let l2 := pyLowerStrip nl
  !(f1 == "") && !(f2 == "") && !(l1 == "") && !(l2 == "") &&
    (l1 == l2) && ((f1 == f2) || (!strict && pyIsNickname f1 f2))

/-- Transcription of claim C4's date rule: checked only when the incoming
record has a parseable birth date and the candidate has a stored one;
strict requires the same calendar year, lenient an absolute year
difference of at most 2. -/
def claimDateOk (bd : Option PyDate) (pb : Option (Option PyDate))
    (strict : Bool) : Bool :=
  match bd, pb with
  | some b, some (some pbd) =>
    if strict then b.year == pbd.year else decide (yearDiff b.year pbd.year ≤ 2)
  | _, _ => true

/-- Claim C4's overall qualification of a candidate: some stored name
matches and the birth dates agree when both available. -/
def claimQualifies (pf pl : String) (bd : Option PyDate) (strict : Bool)
    (p : PersonView) : Bool :=
  (p.names.any (fun n => claimNameMatches pf pl n.1 n.2.2 strict)) &&
    claimDateOk bd p.birth strict

/-- Claim C2's invariant on the marriage table: every row has a mirror row
with the directions swapped and the same date, location and comment. -/
def marriageMirrored (ms : List MarriageRow) : Prop :=
  ∀ r ∈ ms, ∃ t ∈ ms, t.personId = r.otherId ∧ t.otherId = r.personId ∧
    t.date = r.date ∧ t.location = r.location ∧ t.comment = r.comment

/-- Claim C2's invariant on the divorce table. -/
def divorceMirrored (ds : List DivorceRow) : Prop :=
  ∀ r ∈ ds, ∃ t ∈ ds, t.personId = r.otherId ∧ t.otherId = r.personId ∧
    t.date = r.date ∧ t.location = r.location ∧ t.comment = r.comment

/-- All marriage rows between a couple, in either direction. -/
def coupleMarriages (db : DB) (a b : Nat) : List MarriageRow :=
  db.marriages.filter (fun r =>
    (r.personId == a && r.otherId == b) || (r.personId == b && r.otherId == a))

/-- Claim C3's postcondition: every marriage row between the couple, in
both directions, is marked ended. -/
def allCoupleMarriagesEnded (db : DB) (a b : Nat) : Prop :=
  ∀ r ∈ db.marriages,
    ((r.personId = a ∧ r.otherId = b) ∨ (r.personId = b ∧ r.otherId = a)) →
    r.ended = true

/-- A parent-child link row exists for the ordered pair. -/
def pcrExists (db : DB) (p c : Nat) : Bool :=
  db.parentChild.any (fun r => r.parentId == p && r.childId == c)

/-- Number of parent-child link rows for the ordered pair. -/
def pcrCount (db : DB) (p c : Nat) : Nat :=
  (db.parentChild.filter (fun r => r.parentId == p && r.childId == c)).length

/-- Real (non-pretend) mode with the default lenient matching, as used by
`import_gedcom --no-pretend`. -/
def realLenient : ImpCfg := ⟨false, false⟩

/-- The test suite's sample GEDCOM file (three individuals, one family
with a dated marriage and one child), as a list of lines. -/
def sampleGedcomLines : List String :=
  ["0 HEAD", "1 GEDC", "2 VERS 5.5.5", "2 FORM LINEAGE-LINKED", "1 CHAR UTF-8",
   "0 @I1@ INDI", "1 NAME John /Smith/", "2 GIVN John", "2 SURN Smith", "1 SEX M",
   "1 BIRT", "2 DATE 15 MAR 1980", "2 PLAC New York, NY, USA",
   "1 DEAT", "2 DATE 10 JUN 2020", "2 PLAC Los Angeles, CA, USA", "2 CAUS Heart attack",
   "0 @I2@ INDI", "1 NAME Mary /Johnson/", "2 GIVN Mary", "2 SURN Johnson", "1 SEX F",
   "1 BIRT", "2 DATE 22 AUG 1985", "2 PLAC Chicago, IL, USA",
   "0 @F1@ FAM", "1 HUSB @I1@", "1 WIFE @I2@", "1 CHIL @I3@",
   "1 MARR", "2 DATE 05 JUN 2005", "2 PLAC Las Vegas, NV, USA",
   "0 @I3@ INDI", "1 NAME Robert /Smith/", "2 GIVN Robert", "2 SURN Smith", "1 SEX M",
   "1 BIRT", "2 DATE 12 DEC 2010", "2 PLAC Los Angeles, CA, USA",
   "0 TRLR"]

/-- A valid GEDCOM file of three individuals whose given names form a
nickname chain (`bobby`–`robert` and `robert`–`bob` are table pairs but
`bobby`–`bob` is not). -/
def nicknameChainLines : List String :=
  ["0 @I1@ INDI", "1 NAME Bob /Smith/",
   "0 @I2@ INDI", "1 NAME Bobby /Smith/",
   "0 @I3@ INDI", "1 NAME Robert /Smith/"]

/-- First real-mode import of the sample file into an empty store. -/
def sampleRun1 : DB × Stats := importGedcom realLenient sampleGedcomLines emptyDB

/-- Second real-mode import of the sample file. -/
def sampleRun2 : DB × Stats := importGedcom realLenient sampleGedcomLines sampleRun1.1

/-- First real-mode import of the nickname-chain file into an empty store. -/
def chainRun1 : DB × Stats := importGedcom realLenient nicknameChainLines emptyDB

/-- Second real-mode import of the nickname-chain file. -/
def chainRun2 : DB × Stats := importGedcom realLenient nicknameChainLines chainRun1.1

/-- The row counts of every table: persons, names, person-name links,
birth, death, marriage, divorce, immigration and citizenship events, and
parent-child links. -/
def rowCounts (db : DB) : List Nat :=
  [db.persons.length, db.names.length, db.personNames.length,
   db.births.length, db.deaths.length, db.marriages.length,
   db.divorces.length, db.immigrations.length, db.citizenships.length,
   db.parentChild.length]

/-- Bookkeeping facts untouched by a family/event import step: the number
of person rows and the statistics fields other than the step's own
counters. -/
def StepFrame (db : DB) (st : Stats) (res : DB × Stats × Except String Unit) : Prop :=
  res.1.persons.length = db.persons.length ∧
  res.2.1.individualsCreated = st.individualsCreated ∧
  res.2.1.individualsUpdated = st.individualsUpdated ∧
  res.2.1.errors = st.errors

/-- The shape of every entry of the run's error list: a message tagged
with the offending record's GEDCOM id. -/
def TaggedErrorMsg (e : String) : Prop :=
  (∃ gid msg, e = "Error importing individual " ++ gid ++ ": " ++ msg) ∨
  (∃ fid msg, e = "Error importing family " ++ fid ++ ": " ++ msg)

/-! ## Helper lemmas -/

theorem pyUpperChar_of_digit (c : Char) (h : isPyDigit c = true) :
    pyUpperChar c = c := by
  have h2 : 48 ≤ c.toNat ∧ c.toNat ≤ 57 := by simpa [isPyDigit] using h
  unfold pyUpperChar
  rw [if_neg (by omega : ¬(97 ≤ c.toNat ∧ c.toNat ≤ 122))]

theorem isPySpace_of_digit (c : Char) (h : isPyDigit c = true) :
    isPySpace c = false := by
  have h2 : 48 ≤ c.toNat ∧ c.toNat ≤ 57 := by simpa [isPyDigit] using h
  simp only [isPySpace, decide_eq_false_iff_not]
  omega

theorem digitVal_le_nine (c : Char) (h : isPyDigit c = true) : digitVal c ≤ 9 := by
  have h2 : 48 ≤ c.toNat ∧ c.toNat ≤ 57 := by simpa [isPyDigit] using h
  unfold digitVal
  omega

/-- Decidable equality for `Except`, used to evaluate the model on
concrete inputs. -/
instance instDecEqExcept {e a : Type} [DecidableEq e] [DecidableEq a] :
    DecidableEq (Except e a) := fun x y =>
  match x, y with
  | .ok v, .ok w =>
    if h : v = w then isTrue (by rw [h])
    else isFalse (by intro hx; cases hx; exact h rfl)
  | .error v, .error w =>
    if h : v = w then isTrue (by rw [h])
    else isFalse (by intro hx; cases hx; exact h rfl)
  | .ok _, .error _ => isFalse (by intro hx; cases hx)
  | .error _, .ok _ => isFalse (by intro hx; cases hx)

/-! ## Claim C7 -/

/-- C7: `_parse_date` tries, in order, `D[D] MON YYYY` (case-insensitive
month abbreviation), then `YYYY` (January 1 of that year), then
`MM/DD/YYYY`; the first matching pattern wins, and when no pattern matches
the result is `None` — in particular on the five quoted inputs. -/
theorem c7_parse_date_formats :
    pyParseDate "15 MAR 1980" = .ok (some ⟨1980, 3, 15⟩) ∧
    pyParseDate "1980" = .ok (some ⟨1980, 1, 1⟩) ∧
    pyParseDate "03/15/1980" = .ok (some ⟨1980, 3, 15⟩) ∧
    pyParseDate "ABT 1900" = .ok none ∧
    pyParseDate "invalid" = .ok none ∧
    (∀ s : String, matchP1 (pyUpperStr s) = none → matchP2 (pyUpperStr s) = none →
      matchP3 (pyUpperStr s) = none → pyParseDate s = .ok none) := by
  refine ⟨by decide, by decide, by decide, by decide, by decide, ?_⟩
  intro s h1 h2 h3
  unfold pyParseDate
  split
  · rfl
  · simp only [h1, h2, h3]

/-- Witness for C7's general no-match conjunct at a concrete input. -/
theorem c7_witness : pyParseDate "ABT 1900 X" = .ok none :=
  c7_parse_date_formats.2.2.2.2.2 "ABT 1900 X" (by decide) (by decide) (by decide)

/-! ## Claim C8 -/

/-- C8: `_parse_name` returns empty components for empty or non-string
input; an input containing `/` with at least two nonempty stripped
segments takes the first segment's first whitespace token as first name,
its remaining tokens joined by spaces as middle name and the second
segment as surname; otherwise whitespace splitting gives the 1-, 2- and
3-plus-token behaviours — including the four quoted examples. -/
theorem c8_parse_name :
    pyParseName "John /Smith/" = .ok ("John", "", "Smith") ∧
    pyParseName "John Michael /Smith/" = .ok ("John", "Michael", "Smith") ∧
    pyParseName "John Michael David Smith" = .ok ("John", "Michael David", "Smith") ∧
    pyParseName "" = .ok ("", "", "") ∧
    (∀ v : GVal, (∀ t, v ≠ GVal.str t) → pyParseNameVal v = .ok ("", "", "")) ∧
    (∀ s given surname rest g gs, s.data.contains '/' = true →
      slashParts s = given :: surname :: rest →
      pySplitWs given = g :: gs →
      pyParseName s = .ok (g, joinSp gs, surname)) ∧
    (∀ s a, s.data.contains '/' = false →
      pySplitWs (pyStrip s) = [a] → pyParseName s = .ok (a, "", "")) ∧
    (∀ s a b, s.data.contains '/' = false →
      pySplitWs (pyStrip s) = [a, b] → pyParseName s = .ok (a, "", b)) ∧
    (∀ s a b c rest, s.data.contains '/' = false →
      pySplitWs (pyStrip s) = a :: b :: c :: rest →
      pyParseName s = .ok (a, joinSp ((b :: c :: rest).dropLast),
        lastD (b :: c :: rest) "")) := by
  refine ⟨by decide, by decide, by decide, by decide, ?_, ?_, ?_, ?_, ?_⟩
  · intro v hv
    cases v with
    | str t => exact absurd rfl (hv t)
    | dict d => rfl
    | vals l => rfl
  · intro s given surname rest g gs hsl hparts htok
    have hne : s ≠ "" := by
      intro h
      subst h
      simp at hsl
    unfold pyParseName
    rw [if_neg hne]
    simp only [hsl, if_true, hparts, htok]
    cases gs with
    | nil => rfl
    | cons g2 gs2 => rfl
  · intro s a hsl htok
    have hne : s ≠ "" := by
      intro h
      subst h
      rw [show pySplitWs (pyStrip "") = [] from rfl] at htok
      cases htok
    unfold pyParseName
    rw [if_neg hne]
    simp only [hsl, if_false, Bool.false_eq_true]
    unfold parseNameFallback
    rw [htok]
  · intro s a b hsl htok
    have hne : s ≠ "" := by
      intro h
      subst h
      rw [show pySplitWs (pyStrip "") = [] from rfl] at htok
      cases htok
    unfold pyParseName
    rw [if_neg hne]
    simp only [hsl, if_false, Bool.false_eq_true]
    unfold parseNameFallback
    rw [htok]
  · intro s a b c rest hsl htok
    have hne : s ≠ "" := by
      intro h
      subst h
      rw [show pySplitWs (pyStrip "") = [] from rfl] at htok
      cases htok
    unfold pyParseName
    rw [if_neg hne]
    simp only [hsl, if_false, Bool.false_eq_true]
    unfold parseNameFallback
    rw [htok]

/-- Witness for C8's conditional conjuncts at a concrete input. -/
theorem c8_witness :
    pyParseName "Anna Maria Luisa de Medici" =
      .ok ("Anna", "Maria Luisa de", "Medici") :=
  c8_parse_name.2.2.2.2.2.2.2.2 "Anna Maria Luisa de Medici"
    "Anna" "Maria" "Luisa" ["de", "Medici"] (by decide) (by decide)

/-! ## Claim C10 -/

/-- C10 counterexample: the claim asserts that every string beginning with
four digits (and not matching the day-month-year pattern) yields January 1
of that year; at `"0000"` the code instead raises `ValueError` (year 0 is
outside `datetime.date`'s range), so it returns neither that date nor
`None`. -/
theorem c10_counterexample :
    (isPyDigit '0' = true ∧ matchP1 (pyUpperStr "0000") = none) ∧
    pyParseDate "0000" = .error "date value out of range" ∧
    pyParseDate "0000" ≠ .ok (some ⟨0, 1, 1⟩) ∧
    pyParseDate "0000" ≠ .ok none := by decide

/-- C10 (amended): every string that begins with four digits denoting a
year of at least 1 returns January 1 of that year (the day-month-year
pattern can never match such a string, since a digit follows the at most
two day digits where whitespace is required); the all-zero year `"0000"`
instead raises `ValueError`. -/
theorem c10_amended_leading_year (a b c d : Char) (rest : List Char)
    (ha : isPyDigit a = true) (hb : isPyDigit b = true) (hc : isPyDigit c = true)
    (hd : isPyDigit d = true)
    (hy : 1 ≤ 1000 * digitVal a + 100 * digitVal b + 10 * digitVal c + digitVal d) :
    pyParseDate (String.mk (a :: b :: c :: d :: rest)) =
      .ok (some ⟨1000 * digitVal a + 100 * digitVal b + 10 * digitVal c + digitVal d,
        1, 1⟩) := by
  have hne : String.mk (a :: b :: c :: d :: rest) ≠ "" := by
    intro h
    have h2 := congrArg String.data h
    simp at h2
  have hu : pyUpperStr (String.mk (a :: b :: c :: d :: rest)) =
      a :: b :: c :: d :: rest.map pyUpperChar := by
    show (a :: b :: c :: d :: rest).map pyUpperChar = _
    simp [pyUpperChar_of_digit _ ha, pyUpperChar_of_digit _ hb,
          pyUpperChar_of_digit _ hc, pyUpperChar_of_digit _ hd]
  have hm1 : matchP1 (a :: b :: c :: d :: rest.map pyUpperChar) = none := by
    simp [matchP1, matchP1Tail, eatSpaces1, ha, hb,
          isPySpace_of_digit _ hb, isPySpace_of_digit _ hc]
  have hm2 : matchP2 (a :: b :: c :: d :: rest.map pyUpperChar) =
      some (1000 * digitVal a + 100 * digitVal b + 10 * digitVal c + digitVal d) := by
    simp [matchP2, fourDigits, ha, hb, hc, hd]
  have h31 : daysInMonth (1000 * digitVal a + 100 * digitVal b + 10 * digitVal c +
      digitVal d) 1 = 31 := by
    simp [daysInMonth]
  have hdate : mkPyDate (1000 * digitVal a + 100 * digitVal b + 10 * digitVal c +
      digitVal d) 1 1 = .ok ⟨1000 * digitVal a + 100 * digitVal b + 10 * digitVal c +
      digitVal d, 1, 1⟩ := by
    have bda := digitVal_le_nine a ha
    have bdb := digitVal_le_nine b hb
    have bdc := digitVal_le_nine c hc
    have bdd := digitVal_le_nine d hd
    unfold mkPyDate
    rw [if_pos ⟨hy, by omega, by omega, by omega, by omega, by rw [h31]; omega⟩]
  unfold pyParseDate
  rw [if_neg hne]
  simp only [hu, hm1, hm2, hdate]
  rfl

/-- Witness for C10's amended theorem at the claim's example input
`"1980-03-15"`. -/
theorem c10_amended_witness :
    pyParseDate (String.mk ('1' :: '9' :: '8' :: '0' :: "-03-15".data)) =
      .ok (some ⟨1980, 1, 1⟩) := by
  have h := c10_amended_leading_year '1' '9' '8' '0' "-03-15".data
    (by decide) (by decide) (by decide) (by decide) (by decide)
  exact h

/-! ## Claim C4 -/

theorem namesMatch_eq_claim (f m l nf nm nl : String) (strict : Bool) :
    pyNamesMatch f m l nf nm nl strict = claimNameMatches f l nf nl strict := by
  show (if pyLowerStrip f == "" || pyLowerStrip nf == "" || pyLowerStrip l == "" ||
          pyLowerStrip nl == "" then false
        else if !(pyLowerStrip l == pyLowerStrip nl) then false
        else if pyLowerStrip f == pyLowerStrip nf then true
        else if !strict then pyIsNickname (pyLowerStrip f) (pyLowerStrip nf)
        else false) =
      (!(pyLowerStrip f == "") && !(pyLowerStrip nf == "") &&
       !(pyLowerStrip l == "") && !(pyLowerStrip nl == "") &&
       (pyLowerStrip l == pyLowerStrip nl) &&
       ((pyLowerStrip f == pyLowerStrip nf) ||
        (!strict && pyIsNickname (pyLowerStrip f) (pyLowerStrip nf))))
  generalize (pyLowerStrip f == "") = e1
  generalize (pyLowerStrip nf == "") = e2
  generalize (pyLowerStrip l == "") = e3
  generalize (pyLowerStrip nl == "") = e4
  generalize (pyLowerStrip l == pyLowerStrip nl) = e5
  generalize (pyLowerStrip f == pyLowerStrip nf) = e6
  generalize pyIsNickname (pyLowerStrip f) (pyLowerStrip nf) = nick
  cases e1 <;> cases e2 <;> cases e3 <;> cases e4 <;> cases e5 <;> cases e6 <;>
    cases strict <;> cases nick <;> rfl

theorem yearDiff_beq_zero (x y : Nat) : (yearDiff x y == 0) = (x == y) := by
  have h1 : (yearDiff x y == 0) = true ↔ (x == y) = true := by
    simp only [beq_iff_eq]
    unfold yearDiff
    split <;> omega
  cases hxy : (x == y) <;> cases hd : (yearDiff x y == 0) <;> simp_all

theorem datesMatch_eq_claimDateOk (b pbd : PyDate) (strict : Bool) :
    pyDatesMatch b pbd strict = claimDateOk (some b) (some (some pbd)) strict := by
  unfold pyDatesMatch claimDateOk
  by_cases h : b = pbd
  · subst h
    cases strict <;> simp [yearDiff]
  · have hbe : (b == pbd) = false := by
      simp only [beq_eq_false_iff_ne, ne_eq]
      exact h
    rw [hbe]
    cases strict
    · simp
    · simpa using yearDiff_beq_zero b.year pbd.year

theorem isMatchNames_eq_claim (f m l : String) (bd : Option PyDate)
    (pb : Option (Option PyDate)) (strict : Bool)
    (ns : List (String × String × String)) :
    pyIsMatchNames f m l bd pb strict ns =
      ((ns.any fun n => claimNameMatches f l n.1 n.2.2 strict) &&
        claimDateOk bd pb strict) := by
  induction ns with
  | nil => simp [pyIsMatchNames]
  | cons n rest ih =>
    simp only [pyIsMatchNames, List.any_cons, namesMatch_eq_claim]
    cases hnm : claimNameMatches f l n.1 n.2.2 strict
    · simp [hnm, ih]
    · cases bd with
      | none => simp [claimDateOk]
      | some b =>
        cases pb with
        | none => simp [claimDateOk]
        | some pbo =>
          cases pbo with
          | none => simp [claimDateOk]
          | some pbd =>
            rw [if_pos rfl]
            dsimp only
            rw [datesMatch_eq_claimDateOk]
            cases hdo : claimDateOk (some b) (some (some pbd)) strict
            · simp [hdo, ih]
            · simp [hdo]

/-- C4: `find_matching_person` returns the first candidate in pool order
satisfying the claim's policy — some stored name with equal (normalized)
last names and first names equal or (lenient only) a curated nickname
pair, empty names never matching, and birth years agreeing (strict: same
year; lenient: difference at most 2) whenever the incoming record has a
parseable birth date and the candidate a stored one — and `none` for an
empty pool or when no candidate qualifies.  The hypotheses state that the
incoming name and birth-date extractions complete without raising. -/
theorem c4_find_matching_person (g : List (String × GVal)) (pool : List PersonView)
    (strict : Bool) (f m l : String) (bd : Option PyDate)
    (hn : pyParseName (matcherNameInfo g) = .ok (f, m, l))
    (hb : extractBirthDate g = .ok bd) :
    findMatchingPerson g pool strict =
      .ok (pool.find? (claimQualifies f l bd strict)) := by
  unfold findMatchingPerson
  split
  · rename_i hpool
    have hnil : pool = [] := by
      cases pool
      · rfl
      · simp [List.isEmpty] at hpool
    subst hnil
    rfl
  · simp only [hn, hb]
    have hfun : pyIsMatch f m l bd strict = claimQualifies f l bd strict := by
      funext p
      unfold pyIsMatch claimQualifies
      rw [isMatchNames_eq_claim]
    rw [hfun]

/-- Witness for C4 at the spec's own example: stored "Peter Gibson" born
1980-01-01, incoming `Pete /Gibson/` born `01 JAN 1980`, lenient mode. -/
theorem c4_witness :
    findMatchingPerson
      [("NAME", GVal.str "Pete /Gibson/"), ("BIRT", GVal.dict [("DATE", "01 JAN 1980")])]
      [⟨1, [("Peter", "", "Gibson")], some (some ⟨1980, 1, 1⟩)⟩] false =
    .ok (some ⟨1, [("Peter", "", "Gibson")], some (some ⟨1980, 1, 1⟩)⟩) := by
  rw [c4_find_matching_person _ _ _ "Pete" "" "Gibson" (some ⟨1980, 1, 1⟩)
    (by decide) (by decide)]
  decide

/-! ## Frame lemmas for the import steps -/

theorem birthGetOrCreate_persons (db : DB) (pid : Nat) (d : Option PyDate)
    (loc : String) : (birthGetOrCreate db pid d loc).1.persons = db.persons := by
  unfold birthGetOrCreate
  cases db.births.find? (fun b => b.personId == pid) <;> rfl

theorem deathGetOrCreate_persons (db : DB) (pid : Nat) (d : Option PyDate)
    (loc cause : String) :
    (deathGetOrCreate db pid d loc cause).1.persons = db.persons := by
  unfold deathGetOrCreate
  cases db.deaths.find? (fun e => e.personId == pid) <;> rfl

theorem immigrationGetOrCreateDated_persons (db : DB) (pid : Nat) (d : PyDate)
    (fromC toC loc : String) :
    (immigrationGetOrCreateDated db pid d fromC toC loc).1.persons = db.persons := by
  unfold immigrationGetOrCreateDated
  cases db.immigrations.find? (fun e => e.personId == pid && e.date == some d) <;> rfl

theorem immigrationGetOrCreateUndated_persons (db : DB) (pid : Nat)
    (fromC toC loc : String) :
    (immigrationGetOrCreateUndated db pid fromC toC loc).1.persons = db.persons := by
  unfold immigrationGetOrCreateUndated
  cases db.immigrations.find? (fun e => e.personId == pid) <;> rfl

theorem citizenshipGetOrCreateDated_persons (db : DB) (pid : Nat) (d : PyDate)
    (country loc : String) :
    (citizenshipGetOrCreateDated db pid d country loc).1.persons = db.persons := by
  unfold citizenshipGetOrCreateDated
  cases db.citizenships.find? (fun e => e.personId == pid && e.date == some d) <;> rfl

theorem citizenshipGetOrCreateUndated_persons (db : DB) (pid : Nat)
    (country loc : String) :
    (citizenshipGetOrCreateUndated db pid country loc).1.persons = db.persons := by
  unfold citizenshipGetOrCreateUndated
  cases db.citizenships.find? (fun e => e.personId == pid) <;> rfl

theorem nameGetOrCreate_persons (db : DB) (f m l : String) :
    (nameGetOrCreate db f m l).1.persons = db.persons := by
  unfold nameGetOrCreate
  cases db.names.find? (fun n =>
    n.firstName == f && n.middleName == m && n.lastName == l) <;> rfl

theorem personNameGetOrCreate_persons (db : DB) (pid nid : Nat) :
    (personNameGetOrCreate db pid nid).1.persons = db.persons := by
  unfold personNameGetOrCreate
  cases db.personNames.find? (fun pn => pn.personId == pid && pn.nameId == nid) <;> rfl

theorem setNotLiving_persons_length (db : DB) (pid : Nat) :
    (setNotLiving db pid).persons.length = db.persons.length := by
  simp [setNotLiving, updatePerson]

theorem importGender_persons_length (p : Bool) (person : PersonRef)
    (data : List (String × GVal)) (db : DB) :
    (importGender p person data db).persons.length = db.persons.length := by
  unfold importGender
  dsimp only
  repeat' split
  all_goals simp [updatePerson]

theorem stepBind_frame (r : DB × Stats × Except String Unit)
    (f : DB → Stats → DB × Stats × Except String Unit) (db : DB) (st : Stats)
    (h1 : StepFrame db st r) (h2 : ∀ db2 st2, StepFrame db2 st2 (f db2 st2)) :
    StepFrame db st (stepBind r f) := by
  obtain ⟨db1, st1, out⟩ := r
  obtain ⟨a1, a2, a3, a4⟩ := h1
  cases out with
  | ok u =>
    obtain ⟨b1, b2, b3, b4⟩ := h2 db1 st1
    exact ⟨by rw [stepBind]; rw [b1]; exact a1, by rw [stepBind]; rw [b2]; exact a2,
           by rw [stepBind]; rw [b3]; exact a3, by rw [stepBind]; rw [b4]; exact a4⟩
  | error e => exact ⟨a1, a2, a3, a4⟩

theorem importBirth_frame (p : Bool) (person : PersonRef)
    (data : List (String × GVal)) (db : DB) (st : Stats) :
    StepFrame db st (importBirth p person data db st) := by
  refine ⟨?_, ?_, ?_, ?_⟩ <;>
  · unfold importBirth
    dsimp only
    repeat' split
    all_goals simp [Stats.incEvents, birthGetOrCreate_persons]

theorem importDeath_frame (p : Bool) (person : PersonRef)
    (data : List (String × GVal)) (db : DB) (st : Stats) :
    StepFrame db st (importDeath p person data db st) := by
  refine ⟨?_, ?_, ?_, ?_⟩ <;>
  · unfold importDeath
    dsimp only
    repeat' split
    all_goals simp [Stats.incEvents, deathGetOrCreate_persons, setNotLiving_persons_length]

theorem importImmi_frame (p : Bool) (person : PersonRef)
    (data : List (String × GVal)) (db : DB) (st : Stats) :
    StepFrame db st (importImmi p person data db st) := by
  refine ⟨?_, ?_, ?_, ?_⟩ <;>
  · unfold importImmi
    dsimp only
    repeat' split
    all_goals simp [Stats.incEvents, immigrationGetOrCreateDated_persons, immigrationGetOrCreateUndated_persons]

theorem importEmig_frame (p : Bool) (person : PersonRef)
    (data : List (String × GVal)) (db : DB) (st : Stats) :
    StepFrame db st (importEmig p person data db st) := by
  refine ⟨?_, ?_, ?_, ?_⟩ <;>
  · unfold importEmig
    dsimp only
    repeat' split
    all_goals simp [Stats.incEvents, immigrationGetOrCreateDated_persons, immigrationGetOrCreateUndated_persons]

theorem importNatu_frame (p : Bool) (person : PersonRef)
    (data : List (String × GVal)) (db : DB) (st : Stats) :
    StepFrame db st (importNatu p person data db st) := by
  refine ⟨?_, ?_, ?_, ?_⟩ <;>
  · unfold importNatu
    dsimp only
    repeat' split
    all_goals simp [Stats.incEvents, citizenshipGetOrCreateDated_persons, citizenshipGetOrCreateUndated_persons]

theorem importEvents_frame (p : Bool) (person : PersonRef)
    (data : List (String × GVal)) (db : DB) (st : Stats) :
    StepFrame db st (importEvents p person data db st) := by
  unfold importEvents
  exact stepBind_frame _ _ _ _ (importBirth_frame p person data db st)
    (fun db1 st1 => stepBind_frame _ _ _ _ (importDeath_frame p person data db1 st1)
      (fun db2 st2 => stepBind_frame _ _ _ _ (importImmi_frame p person data db2 st2)
        (fun db3 st3 => stepBind_frame _ _ _ _ (importEmig_frame p person data db3 st3)
          (fun db4 st4 => importNatu_frame p person data db4 st4))))

theorem importNameStep_frame (p : Bool) (person : PersonRef) (f m l : String)
    (db : DB) (st : Stats) :
    (importNameStep p person f m l db st).1.persons = db.persons ∧
    (importNameStep p person f m l db st).2.individualsCreated = st.individualsCreated ∧
    (importNameStep p person f m l db st).2.individualsUpdated = st.individualsUpdated ∧
    (importNameStep p person f m l db st).2.errors = st.errors := by
  refine ⟨?_, ?_, ?_, ?_⟩ <;>
  · unfold importNameStep
    dsimp only
    repeat' split
    all_goals simp [nameGetOrCreate_persons, personNameGetOrCreate_persons]

theorem importIndividualTail_frame (p : Bool) (person : PersonRef)
    (data : List (String × GVal)) (db : DB) (st : Stats) :
    (importIndividualTail p person data db st).1.persons.length = db.persons.length ∧
    (importIndividualTail p person data db st).2.1.individualsCreated = st.individualsCreated ∧
    (importIndividualTail p person data db st).2.1.individualsUpdated = st.individualsUpdated ∧
    (importIndividualTail p person data db st).2.1.errors = st.errors := by
  obtain ⟨a1, a2, a3, a4⟩ := importEvents_frame p person data db st
  unfold importIndividualTail
  rcases hev : importEvents p person data db st with ⟨db4, st4, out⟩
  rw [hev] at a1 a2 a3 a4
  dsimp at a1 a2 a3 a4
  cases out with
  | error e => exact ⟨a1, a2, a3, a4⟩
  | ok u =>
    refine ⟨?_, a2, a3, a4⟩
    dsimp
    rw [importGender_persons_length]
    exact a1

/-! ## Claim C9 -/

theorem namesMatch_empty_last (f mm nf nm nl : String) (strict : Bool) :
    pyNamesMatch f mm "" nf nm nl strict = false := by
  unfold pyNamesMatch
  dsimp only
  simp [show pyLowerStrip "" = "" from rfl]

theorem isMatchNames_empty_last (f mm : String) (bd : Option PyDate)
    (pb : Option (Option PyDate)) (strict : Bool)
    (ns : List (String × String × String)) :
    pyIsMatchNames f mm "" bd pb strict ns = false := by
  induction ns with
  | nil => rfl
  | cons n rest ih => simp [pyIsMatchNames, namesMatch_empty_last, ih]

theorem findMatchingPerson_empty_last (g : List (String × GVal)) (f mm : String)
    (bd : Option PyDate)
    (hn : pyParseName (matcherNameInfo g) = .ok (f, mm, ""))
    (hb : extractBirthDate g = .ok bd)
    (pool : List PersonView) (strict : Bool) :
    findMatchingPerson g pool strict = .ok none := by
  unfold findMatchingPerson
  split
  · rfl
  · simp only [hn, hb]
    congr 1
    apply List.find?_eq_none.mpr
    intro p hp
    simp [pyIsMatch, isMatchNames_empty_last]

/-- C9: an individual whose `NAME` parses to a non-empty first name and an
empty last name is not skipped by the importer, yet `_names_match` rejects
it against every stored name (empty last name), so `find_matching_person`
returns `None` for every candidate pool; consequently each real-mode run
over such a record adds one fresh `Person` row and counts one
creation, whatever the store already contains.  The extraction hypotheses
say the record's name and birth date parse without raising. -/
theorem c9_no_surname_creates_fresh (cfg : ImpCfg) (indiv : GRecord)
    (f mm : String) (db : DB) (stats : Stats) (existing : List Nat)
    (bd : Option PyDate)
    (hreal : cfg.pretend = false)
    (hn : pyParseName (matcherNameInfo indiv.rdata) = .ok (f, mm, ""))
    (hf : f ≠ "")
    (hb : extractBirthDate indiv.rdata = .ok bd) :
    (∀ nf nm nl strict, pyNamesMatch f mm "" nf nm nl strict = false) ∧
    (∀ pool strict, findMatchingPerson indiv.rdata pool strict = .ok none) ∧
    (importIndividual cfg indiv existing db stats).1.persons.length =
      db.persons.length + 1 ∧
    (importIndividual cfg indiv existing db stats).2.1.individualsCreated =
      stats.individualsCreated + 1 := by
  have hmatch : findMatchingPerson indiv.rdata (existing.map (personView db))
      cfg.strict = .ok none :=
    findMatchingPerson_empty_last _ f mm bd hn hb _ _
  have hfb : (f == "") = false := beq_eq_false_iff_ne.mpr hf
  have hps : importPersonStep cfg.pretend indiv.gid none db stats =
      ((personCreate db).1,
       { stats with individualsCreated := stats.individualsCreated + 1 },
       PersonRef.real (personCreate db).2) := by
    simp [importPersonStep, hreal]
  refine ⟨fun nf nm nl strict => namesMatch_empty_last f mm nf nm nl strict,
    fun pool strict => findMatchingPerson_empty_last _ f mm bd hn hb pool strict,
    ?_, ?_⟩
  · unfold importIndividual
    dsimp only
    simp only [hn, hfb, Bool.false_and, hmatch, Bool.false_eq_true, if_false, hps]
    rw [(importIndividualTail_frame _ _ _ _ _).1]
    rw [(importNameStep_frame _ _ _ _ _ _ _).1]
    simp [personCreate]
  · unfold importIndividual
    dsimp only
    simp only [hn, hfb, Bool.false_and, hmatch, Bool.false_eq_true, if_false, hps]
    rw [(importIndividualTail_frame _ _ _ _ _).2.1]
    rw [(importNameStep_frame _ _ _ _ _ _ _).2.1]

/-- Witness for C9 at a concrete single-token name (`Madonna`) against a
nonempty store. -/
theorem c9_witness :
    (importIndividual realLenient ⟨some "@I1@", "INDI", [("NAME", GVal.str "Madonna")]⟩
        [] emptyDB initStats).1.persons.length = 1 ∧
    (importIndividual realLenient ⟨some "@I1@", "INDI", [("NAME", GVal.str "Madonna")]⟩
        [] emptyDB initStats).2.1.individualsCreated = 1 ∧
    findMatchingPerson [("NAME", GVal.str "Madonna")]
      [⟨1, [("Madonna", "", "X")], none⟩] false = .ok none := by
  have h := c9_no_surname_creates_fresh realLenient
    ⟨some "@I1@", "INDI", [("NAME", GVal.str "Madonna")]⟩ "Madonna" "" emptyDB
    initStats [] none rfl (by decide) (by decide) (by decide)
  exact ⟨h.2.2.1, h.2.2.2, h.2.1 [⟨1, [("Madonna", "", "X")], none⟩] false⟩

/-! ## Claim C3 -/

theorem endMarriages_divorces (db : DB) (p o : Nat) :
    (endMarriages db p o).divorces = db.divorces := rfl

theorem divorceSaveNew_row_one (db : DB) (p o : Nat) (d : Option PyDate)
    (loc cmt : String) :
    ∃ r ∈ (divorceSaveNew db p o d loc cmt).divorces,
      r.personId = p ∧ r.otherId = o ∧ r.date = d := by
  unfold divorceSaveNew
  dsimp only
  split
  · refine ⟨⟨db.nextId, p, o, d, loc, cmt⟩, ?_, rfl, rfl, rfl⟩
    simp [endMarriages]
  · refine ⟨⟨db.nextId, p, o, d, loc, cmt⟩, ?_, rfl, rfl, rfl⟩
    simp [endMarriages]

theorem divorceSaveNew_row_two (db : DB) (p o : Nat) (d : Option PyDate)
    (loc cmt : String) :
    ∃ r ∈ (divorceSaveNew db p o d loc cmt).divorces,
      r.personId = o ∧ r.otherId = p ∧ r.date = d := by
  unfold divorceSaveNew
  dsimp only
  split
  · rename_i hex
    unfold divorceExists at hex
    simp only [List.any_eq_true, Bool.and_eq_true, beq_iff_eq] at hex
    obtain ⟨r, hr, ⟨h1, h2⟩, h3⟩ := hex
    exact ⟨r, by simpa [endMarriages] using hr, h1, h2, h3⟩
  · refine ⟨⟨db.nextId + 1, o, p, d, loc, cmt⟩, ?_, rfl, rfl, rfl⟩
    simp [endMarriages]

theorem divorceSaveNew_ends (db : DB) (p o : Nat) (d : Option PyDate)
    (loc cmt : String) :
    allCoupleMarriagesEnded (divorceSaveNew db p o d loc cmt) p o := by
  unfold allCoupleMarriagesEnded divorceSaveNew endMarriages
  dsimp only
  intro r hr hcond
  split at hr <;>
  · simp only [List.mem_map] at hr
    obtain ⟨r0, hr0, hEq⟩ := hr
    split at hEq
    · rw [← hEq]
    · rename_i hcnd
      subst hEq
      simp only [Bool.or_eq_true, Bool.and_eq_true, beq_iff_eq] at hcnd
      tauto

/-- C3: saving a new `DivorceEvent` between A and B creates the symmetric
pair of divorce rows (the mirror is find-or-created, so both directions
exist afterwards) and marks every marriage between A and B, in both
directions, as ended; and the real-mode import of a family's `DIV` record
with a parsed date, when neither direction already has a divorce on that
date, does the same through `DivorceEvent.objects.create`. -/
theorem c3_divorce_closes_marriages :
    (∀ db a b d loc cmt,
      (∃ r ∈ (divorceSaveNew db a b d loc cmt).divorces,
        r.personId = a ∧ r.otherId = b ∧ r.date = d) ∧
      (∃ r ∈ (divorceSaveNew db a b d loc cmt).divorces,
        r.personId = b ∧ r.otherId = a ∧ r.date = d) ∧
      allCoupleMarriagesEnded (divorceSaveNew db a b d loc cmt) a b) ∧
    (∀ data db st a b d2,
      pyParseDate (dictGetD (divDict data) "DATE" "") = .ok (some d2) →
      divorceExists db a b (some d2) = false →
      divorceExists db b a (some d2) = false →
      (∃ r ∈ (importDivorce false a b data db st).1.divorces,
        r.personId = a ∧ r.otherId = b ∧ r.date = some d2) ∧
      (∃ r ∈ (importDivorce false a b data db st).1.divorces,
        r.personId = b ∧ r.otherId = a ∧ r.date = some d2) ∧
      allCoupleMarriagesEnded (importDivorce false a b data db st).1 a b) := by
  constructor
  · intro db a b d loc cmt
    exact ⟨divorceSaveNew_row_one db a b d loc cmt,
      divorceSaveNew_row_two db a b d loc cmt, divorceSaveNew_ends db a b d loc cmt⟩
  · intro data db st a b d2 hparse hex1 hex2
    unfold importDivorce
    dsimp only
    simp only [hparse, hex1, hex2, Bool.not_false, Bool.and_self, if_true]
    exact ⟨divorceSaveNew_row_one db a b (some d2) _ _,
      divorceSaveNew_row_two db a b (some d2) _ _,
      divorceSaveNew_ends db a b (some d2) _ _⟩

/-- Witness for C3's import conjunct: a store with one open marriage
between persons 1 and 2 and a family `DIV` record dated 15 JUL 2010. -/
theorem c3_witness :
    (∃ r ∈ (importDivorce false 1 2 [("DIV", GVal.dict [("DATE", "15 JUL 2010")])]
        ⟨[], [], [], [], [], [⟨1, 1, 2, none, "", "", false⟩], [], [], [], [], 2⟩
        initStats).1.divorces,
      r.personId = 1 ∧ r.otherId = 2 ∧ r.date = some ⟨2010, 7, 15⟩) ∧
    allCoupleMarriagesEnded
      (importDivorce false 1 2 [("DIV", GVal.dict [("DATE", "15 JUL 2010")])]
        ⟨[], [], [], [], [], [⟨1, 1, 2, none, "", "", false⟩], [], [], [], [], 2⟩
        initStats).1 1 2 := by
  have h := c3_divorce_closes_marriages.2
    [("DIV", GVal.dict [("DATE", "15 JUL 2010")])]
    ⟨[], [], [], [], [], [⟨1, 1, 2, none, "", "", false⟩], [], [], [], [], 2⟩
    initStats 1 2 ⟨2010, 7, 15⟩ (by decide) (by decide) (by decide)
  exact ⟨h.1, h.2.2⟩

/-! ## Claim C5 -/

theorem stepBind_ok (r : DB × Stats × Except String Unit)
    (f : DB → Stats → DB × Stats × Except String Unit)
    (h : r.2.2 = Except.ok ()) : stepBind r f = f r.1 r.2.1 := by
  obtain ⟨db, st, out⟩ := r
  dsimp at h
  subst h
  rfl

theorem pcrGetOrCreate_creates (db : DB) (p c : Nat) :
    pcrExists (pcrGetOrCreate db p c).1 p c = true := by
  unfold pcrGetOrCreate
  cases hf : db.parentChild.find? (fun r => r.parentId == p && r.childId == c) with
  | none =>
    dsimp only
    unfold pcrExists
    simp
  | some r =>
    dsimp only
    have hpr := List.find?_some hf
    have hmem := List.mem_of_find?_eq_some hf
    unfold pcrExists
    simp only [List.any_eq_true]
    exact ⟨r, hmem, hpr⟩

theorem pcrGetOrCreate_mono (db : DB) (p c p2 c2 : Nat)
    (h : pcrExists db p c = true) :
    pcrExists (pcrGetOrCreate db p2 c2).1 p c = true := by
  unfold pcrGetOrCreate
  cases hf : db.parentChild.find? (fun r => r.parentId == p2 && r.childId == c2) with
  | none =>
    dsimp only
    unfold pcrExists at h ⊢
    simp only [List.any_append, h, Bool.true_or]
  | some r => exact h

theorem pcrGetOrCreate_count (db : DB) (p c p2 c2 : Nat)
    (h : pcrCount db p c ≤ 1) :
    pcrCount (pcrGetOrCreate db p2 c2).1 p c ≤ 1 := by
  unfold pcrGetOrCreate
  cases hf : db.parentChild.find? (fun r => r.parentId == p2 && r.childId == c2) with
  | some r => exact h
  | none =>
    dsimp only
    unfold pcrCount at h ⊢
    rw [List.filter_append]
    by_cases hpc : ((p2 == p) && (c2 == c)) = true
    · obtain ⟨hp, hc⟩ := by simpa [Bool.and_eq_true, beq_iff_eq] using hpc
      subst hp
      subst hc
      have hnil : db.parentChild.filter (fun r => r.parentId == p2 && r.childId == c2) = [] := by
        rw [List.filter_eq_nil_iff]
        intro a ha
        have := List.find?_eq_none.mp hf a ha
        simpa using this
      rw [hnil]
      simp
    · have hfl : ((p2 == p) && (c2 == c)) = false := by
        cases hx : ((p2 == p) && (c2 == c)) with
        | true => exact absurd hx hpc
        | false => rfl
      have hone : ([(⟨db.nextId, p2, c2⟩ : PCRRow)].filter
          (fun r => r.parentId == p && r.childId == c)) = [] := by
        simp [List.filter_cons, hfl]
      rw [hone]
      simpa using h

theorem marriageSaveNew_parentChild (db : DB) (p o : Nat) (d : Option PyDate)
    (loc cmt : String) :
    (marriageSaveNew db p o d loc cmt).parentChild = db.parentChild := by
  unfold marriageSaveNew
  dsimp only
  split <;> rfl

theorem divorceSaveNew_parentChild (db : DB) (p o : Nat) (d : Option PyDate)
    (loc cmt : String) :
    (divorceSaveNew db p o d loc cmt).parentChild = db.parentChild := by
  unfold divorceSaveNew endMarriages
  dsimp only
  split <;> rfl

theorem importMarriage_parentChild (p : Bool) (h w : Nat)
    (data : List (String × GVal)) (db : DB) (st : Stats) :
    (importMarriage p h w data db st).1.parentChild = db.parentChild := by
  unfold importMarriage
  dsimp only
  repeat' split
  all_goals simp [marriageSaveNew_parentChild]

theorem importDivorce_parentChild (p : Bool) (h w : Nat)
    (data : List (String × GVal)) (db : DB) (st : Stats) :
    (importDivorce p h w data db st).1.parentChild = db.parentChild := by
  unfold importDivorce
  dsimp only
  repeat' split
  all_goals simp [divorceSaveNew_parentChild]

theorem importMarriage_ok (p : Bool) (h w : Nat) (data : List (String × GVal))
    (db : DB) (st : Stats) (md : Option PyDate)
    (hp : pyParseDate (dictGetD (marrDict data) "DATE" "") = .ok md) :
    (importMarriage p h w data db st).2.2 = Except.ok () := by
  unfold importMarriage
  dsimp only
  simp only [hp]
  repeat' split
  all_goals rfl

theorem importDivorce_ok (p : Bool) (h w : Nat) (data : List (String × GVal))
    (db : DB) (st : Stats) (dd : Option PyDate)
    (hp : pyParseDate (dictGetD (divDict data) "DATE" "") = .ok dd) :
    (importDivorce p h w data db st).2.2 = Except.ok () := by
  unfold importDivorce
  dsimp only
  simp only [hp]
  repeat' split
  all_goals rfl

theorem importChildLinks_all (h w : Nat) (pmap : List (Option String × PersonRef))
    (children : List GVal) (hstr : ∀ v ∈ children, ∃ s, v = GVal.str s) :
    ∀ db st,
      (importChildLinks false h w pmap db st children).2.2 = Except.ok () ∧
      (∀ cid ref, GVal.str cid ∈ children → cid ≠ "" →
        pmapLookup pmap (some cid) = some ref →
        pcrExists (importChildLinks false h w pmap db st children).1 h ref.refId = true ∧
        pcrExists (importChildLinks false h w pmap db st children).1 w ref.refId = true) ∧
      (∀ p c, pcrCount db p c ≤ 1 →
        pcrCount (importChildLinks false h w pmap db st children).1 p c ≤ 1) ∧
      (∀ p c, pcrExists db p c = true →
        pcrExists (importChildLinks false h w pmap db st children).1 p c = true) := by
  induction children with
  | nil =>
    intro db st
    exact ⟨rfl, fun cid ref hmem => absurd hmem (List.not_mem_nil _),
      fun p c hp => hp, fun p c hp => hp⟩
  | cons v rest ih =>
    intro db st
    obtain ⟨s, rfl⟩ := hstr v (List.mem_cons_self v rest)
    have hstr2 : ∀ v2 ∈ rest, ∃ s2, v2 = GVal.str s2 :=
      fun v2 hv2 => hstr v2 (List.mem_cons_of_mem _ hv2)
    have ihr := ih hstr2
    by_cases hs : s = ""
    · subst hs
      have hred : importChildLinks false h w pmap db st (GVal.str "" :: rest) =
          importChildLinks false h w pmap db st rest := by
        conv_lhs => rw [importChildLinks]
        simp [GVal.truthy]
      rw [hred]
      obtain ⟨o1, o2, o3, o4⟩ := ihr db st
      refine ⟨o1, ?_, o3, o4⟩
      intro cid ref hmem hcid hlook
      rcases List.mem_cons.mp hmem with hhd | htl
      · cases hhd
        exact absurd rfl hcid
      · exact o2 cid ref htl hcid hlook
    · have htr : (GVal.str s).truthy = true := by
        simp [GVal.truthy, hs]
      cases hlk : pmapLookup pmap (some s) with
      | none =>
        have hred : importChildLinks false h w pmap db st (GVal.str s :: rest) =
            importChildLinks false h w pmap db st rest := by
          conv_lhs => rw [importChildLinks]
          simp [htr, hlk]
        rw [hred]
        obtain ⟨o1, o2, o3, o4⟩ := ihr db st
        refine ⟨o1, ?_, o3, o4⟩
        intro cid ref hmem hcid hlook
        rcases List.mem_cons.mp hmem with hhd | htl
        · cases hhd
          rw [hlk] at hlook
          cases hlook
        · exact o2 cid ref htl hcid hlook
      | some childRef =>
        have hred : importChildLinks false h w pmap db st (GVal.str s :: rest) =
            importChildLinks false h w pmap
              (pcrGetOrCreate (pcrGetOrCreate db h childRef.refId).1 w childRef.refId).1
              (if (pcrGetOrCreate (pcrGetOrCreate db h childRef.refId).1 w childRef.refId).2
                then (if (pcrGetOrCreate db h childRef.refId).2 then st.incRel else st).incRel
                else (if (pcrGetOrCreate db h childRef.refId).2 then st.incRel else st)) rest := by
          conv_lhs => rw [importChildLinks]
          simp [htr, hlk]
        rw [hred]
        obtain ⟨o1, o2, o3, o4⟩ := ihr _ _
        refine ⟨o1, ?_, ?_, ?_⟩
        · intro cid ref hmem hcid hlook
          rcases List.mem_cons.mp hmem with hhd | htl
          · cases hhd
            rw [hlk] at hlook
            cases hlook
            constructor
            · exact o4 _ _ (pcrGetOrCreate_mono _ _ _ _ _ (pcrGetOrCreate_creates db h childRef.refId))
            · exact o4 _ _ (pcrGetOrCreate_creates _ w childRef.refId)
          · exact o2 cid ref htl hcid hlook
        · intro p c hp
          exact o3 p c (pcrGetOrCreate_count _ _ _ _ _ (pcrGetOrCreate_count _ _ _ _ _ hp))
        · intro p c hp
          exact o4 p c (pcrGetOrCreate_mono _ _ _ _ _ (pcrGetOrCreate_mono _ _ _ _ _ hp))

/-- C5 counterexample: a family whose husband and child both resolve but
whose wife is absent creates no parent-child link at all — the children
loop is nested inside the both-spouses branch — contradicting the claim's
"from each resolved parent (husband and/or wife)". -/
theorem c5_counterexample :
    pmapLookup [(some "@I1@", PersonRef.real 1), (some "@I3@", PersonRef.real 2)]
      (some "@I1@") = some (PersonRef.real 1) ∧
    pmapLookup [(some "@I1@", PersonRef.real 1), (some "@I3@", PersonRef.real 2)]
      (some "@I3@") = some (PersonRef.real 2) ∧
    (importFamily ⟨false, false⟩
      ⟨some "@F1@", "FAM", [("HUSB", GVal.vals ["@I1@"]), ("CHIL", GVal.vals ["@I3@"])]⟩
      [(some "@I1@", PersonRef.real 1), (some "@I3@", PersonRef.real 2)]
      ⟨[⟨1, "U", true⟩, ⟨2, "U", true⟩], [], [], [], [], [], [], [], [], [], 3⟩
      initStats).1.parentChild = [] := by decide

/-- C5 (amended): parent-child links are materialized only when both
spouses resolve; in that case the family import succeeds, and for every
truthy child id resolving through the run map a link husband-to-child and
wife-to-child is find-or-created, never duplicating a row for an ordered
pair; a family with an unresolved spouse is skipped entirely (no writes,
warnings only), including the links of its resolved children. -/
theorem c5_amended (cfg : ImpCfg) (fam : GRecord)
    (pmap : List (Option String × PersonRef)) (db : DB) (st : Stats)
    (hid wid : String) (hRef wRef : PersonRef) (mdd dvd : Option PyDate)
    (hreal : cfg.pretend = false)
    (hh : famMemberId fam.rdata "HUSB" = .ok hid)
    (hw : famMemberId fam.rdata "WIFE" = .ok wid)
    (hhr : pmapLookup pmap (some hid) = some hRef)
    (hwr : pmapLookup pmap (some wid) = some wRef)
    (hmd : pyParseDate (dictGetD (marrDict fam.rdata) "DATE" "") = .ok mdd)
    (hdd : pyParseDate (dictGetD (divDict fam.rdata) "DATE" "") = .ok dvd)
    (hstr : ∀ v ∈ famChildren fam.rdata, ∃ s, v = GVal.str s) :
    ((importFamily cfg fam pmap db st).2.2 = Except.ok () ∧
     (∀ cid ref, GVal.str cid ∈ famChildren fam.rdata → cid ≠ "" →
        pmapLookup pmap (some cid) = some ref →
        pcrExists (importFamily cfg fam pmap db st).1 hRef.refId ref.refId = true ∧
        pcrExists (importFamily cfg fam pmap db st).1 wRef.refId ref.refId = true) ∧
     (∀ p c, pcrCount db p c ≤ 1 →
        pcrCount (importFamily cfg fam pmap db st).1 p c ≤ 1)) ∧
    (∀ fam2 pmap2 db2 st2 hid2 wid2,
      famMemberId fam2.rdata "HUSB" = .ok hid2 →
      famMemberId fam2.rdata "WIFE" = .ok wid2 →
      (pmapLookup pmap2 (some hid2) = none ∨ pmapLookup pmap2 (some wid2) = none) →
      importFamily cfg fam2 pmap2 db2 st2 = (db2, st2, Except.ok ())) := by
  constructor
  · have hmok := importMarriage_ok false hRef.refId wRef.refId fam.rdata db st mdd hmd
    have hred : importFamily cfg fam pmap db st =
        importChildLinks false hRef.refId wRef.refId pmap
          (importDivorce false hRef.refId wRef.refId fam.rdata
            (importMarriage false hRef.refId wRef.refId fam.rdata db st).1
            (importMarriage false hRef.refId wRef.refId fam.rdata db st).2.1).1
          (importDivorce false hRef.refId wRef.refId fam.rdata
            (importMarriage false hRef.refId wRef.refId fam.rdata db st).1
            (importMarriage false hRef.refId wRef.refId fam.rdata db st).2.1).2.1
          (famChildren fam.rdata) := by
      unfold importFamily
      dsimp only
      simp only [hh, hw, hhr, hwr, hreal]
      rw [stepBind_ok _ _ hmok]
      rw [stepBind_ok _ _ (importDivorce_ok false hRef.refId wRef.refId fam.rdata
        (importMarriage false hRef.refId wRef.refId fam.rdata db st).1
        (importMarriage false hRef.refId wRef.refId fam.rdata db st).2.1 dvd hdd)]
    obtain ⟨o1, o2, o3, _⟩ := importChildLinks_all hRef.refId wRef.refId pmap
      (famChildren fam.rdata) hstr
      (importDivorce false hRef.refId wRef.refId fam.rdata
        (importMarriage false hRef.refId wRef.refId fam.rdata db st).1
        (importMarriage false hRef.refId wRef.refId fam.rdata db st).2.1).1
      (importDivorce false hRef.refId wRef.refId fam.rdata
        (importMarriage false hRef.refId wRef.refId fam.rdata db st).1
        (importMarriage false hRef.refId wRef.refId fam.rdata db st).2.1).2.1
    rw [hred]
    refine ⟨o1, o2, ?_⟩
    intro p c hp
    apply o3
    unfold pcrCount
    rw [importDivorce_parentChild, importMarriage_parentChild]
    exact hp
  · intro fam2 pmap2 db2 st2 hid2 wid2 h2h h2w hnone
    unfold importFamily
    dsimp only
    simp only [h2h, h2w]
    rcases hnone with hn | hn
    · rw [hn]
    · rw [hn]
      cases pmapLookup pmap2 (some hid2) <;> rfl

/-- Witness for C5's amended theorem: a fully resolved family with one
child produces both links. -/
theorem c5_amended_witness :
    pcrExists (importFamily ⟨false, false⟩
      ⟨some "@F1@", "FAM", [("HUSB", GVal.vals ["@I1@"]), ("WIFE", GVal.vals ["@I2@"]),
        ("CHIL", GVal.vals ["@I3@"])]⟩
      [(some "@I1@", PersonRef.real 1), (some "@I2@", PersonRef.real 2),
       (some "@I3@", PersonRef.real 3)]
      ⟨[⟨1, "U", true⟩, ⟨2, "U", true⟩, ⟨3, "U", true⟩], [], [], [], [], [], [], [], [], [], 4⟩
      initStats).1 1 3 = true ∧
    pcrExists (importFamily ⟨false, false⟩
      ⟨some "@F1@", "FAM", [("HUSB", GVal.vals ["@I1@"]), ("WIFE", GVal.vals ["@I2@"]),
        ("CHIL", GVal.vals ["@I3@"])]⟩
      [(some "@I1@", PersonRef.real 1), (some "@I2@", PersonRef.real 2),
       (some "@I3@", PersonRef.real 3)]
      ⟨[⟨1, "U", true⟩, ⟨2, "U", true⟩, ⟨3, "U", true⟩], [], [], [], [], [], [], [], [], [], 4⟩
      initStats).1 2 3 = true := by
  have h := c5_amended ⟨false, false⟩
    ⟨some "@F1@", "FAM", [("HUSB", GVal.vals ["@I1@"]), ("WIFE", GVal.vals ["@I2@"]),
      ("CHIL", GVal.vals ["@I3@"])]⟩
    [(some "@I1@", PersonRef.real 1), (some "@I2@", PersonRef.real 2),
     (some "@I3@", PersonRef.real 3)]
    ⟨[⟨1, "U", true⟩, ⟨2, "U", true⟩, ⟨3, "U", true⟩], [], [], [], [], [], [], [], [], [], 4⟩
    initStats "@I1@" "@I2@" (PersonRef.real 1) (PersonRef.real 2) none none
    rfl (by decide) (by decide) (by decide) (by decide) (by decide) (by decide)
    (by
      intro v hv
      have hfc : v ∈ [GVal.str "@I3@"] := hv
      rw [List.mem_singleton] at hfc
      exact ⟨"@I3@", hfc⟩)
  exact h.1.2.1 "@I3@" (PersonRef.real 3) (by decide) (by decide) (by decide)

/-! ## Claim C2 -/

theorem marriageSaveNew_divorces (db : DB) (p o : Nat) (d : Option PyDate)
    (loc cmt : String) :
    (marriageSaveNew db p o d loc cmt).divorces = db.divorces := by
  unfold marriageSaveNew
  dsimp only
  split <;> rfl

theorem divorceSaveNew_marriages (db : DB) (p o : Nat) (d : Option PyDate)
    (loc cmt : String) :
    (divorceSaveNew db p o d loc cmt).marriages = (endMarriages db p o).marriages := by
  unfold divorceSaveNew
  dsimp only
  split <;> rfl

theorem endMap_fields (a b : Nat) (x : MarriageRow) :
    ((if (x.personId == a && x.otherId == b) || (x.personId == b && x.otherId == a)
      then { x with ended := true } else x)).personId = x.personId ∧
    ((if (x.personId == a && x.otherId == b) || (x.personId == b && x.otherId == a)
      then { x with ended := true } else x)).otherId = x.otherId ∧
    ((if (x.personId == a && x.otherId == b) || (x.personId == b && x.otherId == a)
      then { x with ended := true } else x)).date = x.date ∧
    ((if (x.personId == a && x.otherId == b) || (x.personId == b && x.otherId == a)
      then { x with ended := true } else x)).location = x.location ∧
    ((if (x.personId == a && x.otherId == b) || (x.personId == b && x.otherId == a)
      then { x with ended := true } else x)).comment = x.comment := by
  split <;> exact ⟨rfl, rfl, rfl, rfl, rfl⟩

theorem endMarriages_mirrored (db : DB) (p o : Nat)
    (hinv : marriageMirrored db.marriages) :
    marriageMirrored (endMarriages db p o).marriages := by
  unfold endMarriages marriageMirrored
  dsimp only
  intro r hr
  simp only [List.mem_map] at hr
  obtain ⟨r0, hr0, hEq⟩ := hr
  obtain ⟨t, ht, h1, h2, h3, h4, h5⟩ := hinv r0 hr0
  obtain ⟨e1, e2, e3, e4, e5⟩ := endMap_fields p o t
  obtain ⟨f1, f2, f3, f4, f5⟩ := endMap_fields p o r0
  refine ⟨_, List.mem_map_of_mem _ ht, ?_, ?_, ?_, ?_, ?_⟩
  · rw [e1, h1, ← hEq, f2]
  · rw [e2, h2, ← hEq, f1]
  · rw [e3, h3, ← hEq, f3]
  · rw [e4, h4, ← hEq, f4]
  · rw [e5, h5, ← hEq, f5]

theorem marriageMirrored_append_pair (l : List MarriageRow) (r1 r2 : MarriageRow)
    (h : marriageMirrored l)
    (hp : r2.personId = r1.otherId) (ho : r2.otherId = r1.personId)
    (hd : r2.date = r1.date) (hl : r2.location = r1.location)
    (hc : r2.comment = r1.comment) :
    marriageMirrored (l ++ [r1, r2]) := by
  intro r hr
  rcases List.mem_append.mp hr with hin | hpair
  · obtain ⟨t, ht, ht1, ht2, ht3, ht4, ht5⟩ := h r hin
    exact ⟨t, List.mem_append_left _ ht, ht1, ht2, ht3, ht4, ht5⟩
  · rcases List.mem_cons.mp hpair with h1 | h2
    · subst h1
      refine ⟨r2, List.mem_append_right _ (by simp), hp, ho, hd, hl, hc⟩
    · rcases List.mem_cons.mp h2 with h1 | h0
      · subst h1
        refine ⟨r1, List.mem_append_right _ (by simp), ?_, ?_, ?_, ?_, ?_⟩
        · rw [ho]
        · rw [hp]
        · rw [hd]
        · rw [hl]
        · rw [hc]
      · cases h0

theorem marriageMirrored_append_self (l : List MarriageRow) (r1 : MarriageRow)
    (h : marriageMirrored l) (hself : r1.personId = r1.otherId) :
    marriageMirrored (l ++ [r1]) := by
  intro r hr
  rcases List.mem_append.mp hr with hin | hone
  · obtain ⟨t, ht, ht1, ht2, ht3, ht4, ht5⟩ := h r hin
    exact ⟨t, List.mem_append_left _ ht, ht1, ht2, ht3, ht4, ht5⟩
  · rcases List.mem_cons.mp hone with h1 | h0
    · subst h1
      exact ⟨r, List.mem_append_right _ (by simp), hself, hself.symm, rfl, rfl, rfl⟩
    · cases h0

theorem marriageSaveNew_mirrored (db : DB) (p o : Nat) (d : Option PyDate)
    (loc cmt : String) (hinv : marriageMirrored db.marriages)
    (h2 : marriageExists db o p d = false) :
    marriageMirrored (marriageSaveNew db p o d loc cmt).marriages := by
  unfold marriageSaveNew
  dsimp only
  split
  · rename_i hex
    unfold marriageExists at hex h2
    dsimp only at hex
    rw [List.any_append] at hex
    rw [h2] at hex
    simp only [Bool.false_or, List.any_cons, List.any_nil, Bool.or_false,
      Bool.and_eq_true, beq_iff_eq] at hex
    obtain ⟨⟨hpo, _⟩, _⟩ := hex
    exact marriageMirrored_append_self _ _ hinv hpo
  · dsimp only
    rw [List.append_assoc]
    apply marriageMirrored_append_pair _ _ _ hinv <;> rfl

theorem marriage_no_couple_row_of_find_none (db : DB) (h w : Nat)
    (hinv : marriageMirrored db.marriages)
    (hf : db.marriages.find? (fun r => r.personId == h && r.otherId == w) = none) :
    ∀ d, marriageExists db w h d = false := by
  intro d
  cases hx : marriageExists db w h d with
  | false => rfl
  | true =>
    exfalso
    unfold marriageExists at hx
    simp only [List.any_eq_true, Bool.and_eq_true, beq_iff_eq] at hx
    obtain ⟨r, hr, ⟨hr1, hr2⟩, hr3⟩ := hx
    obtain ⟨t, ht, ht1, ht2, _, _, _⟩ := hinv r hr
    have := List.find?_eq_none.mp hf t ht
    rw [ht1, ht2, hr1, hr2] at this
    simp at this

theorem divorceMirrored_append_pair (l : List DivorceRow) (r1 r2 : DivorceRow)
    (h : divorceMirrored l)
    (hp : r2.personId = r1.otherId) (ho : r2.otherId = r1.personId)
    (hd : r2.date = r1.date) (hl : r2.location = r1.location)
    (hc : r2.comment = r1.comment) :
    divorceMirrored (l ++ [r1, r2]) := by
  intro r hr
  rcases List.mem_append.mp hr with hin | hpair
  · obtain ⟨t, ht, ht1, ht2, ht3, ht4, ht5⟩ := h r hin
    exact ⟨t, List.mem_append_left _ ht, ht1, ht2, ht3, ht4, ht5⟩
  · rcases List.mem_cons.mp hpair with h1 | h2
    · subst h1
      exact ⟨r2, List.mem_append_right _ (by simp), hp, ho, hd, hl, hc⟩
    · rcases List.mem_cons.mp h2 with h1 | h0
      · subst h1
        refine ⟨r1, List.mem_append_right _ (by simp), ?_, ?_, ?_, ?_, ?_⟩
        · rw [ho]
        · rw [hp]
        · rw [hd]
        · rw [hl]
        · rw [hc]
      · cases h0

theorem divorceMirrored_append_self (l : List DivorceRow) (r1 : DivorceRow)
    (h : divorceMirrored l) (hself : r1.personId = r1.otherId) :
    divorceMirrored (l ++ [r1]) := by
  intro r hr
  rcases List.mem_append.mp hr with hin | hone
  · obtain ⟨t, ht, ht1, ht2, ht3, ht4, ht5⟩ := h r hin
    exact ⟨t, List.mem_append_left _ ht, ht1, ht2, ht3, ht4, ht5⟩
  · rcases List.mem_cons.mp hone with h1 | h0
    · subst h1
      exact ⟨r, List.mem_append_right _ (by simp), hself, hself.symm, rfl, rfl, rfl⟩
    · cases h0

theorem divorceSaveNew_mirrored (db : DB) (p o : Nat) (d : Option PyDate)
    (loc cmt : String) (hinv : divorceMirrored db.divorces)
    (h2 : divorceExists db o p d = false) :
    divorceMirrored (divorceSaveNew db p o d loc cmt).divorces := by
  unfold divorceSaveNew
  dsimp only
  split
  · rename_i hex
    unfold divorceExists at hex h2
    dsimp only at hex
    rw [List.any_append] at hex
    rw [h2] at hex
    simp only [Bool.false_or, List.any_cons, List.any_nil, Bool.or_false,
      Bool.and_eq_true, beq_iff_eq] at hex
    obtain ⟨⟨hpo, _⟩, _⟩ := hex
    show divorceMirrored (db.divorces ++ _)
    exact divorceMirrored_append_self _ _ hinv hpo
  · show divorceMirrored (db.divorces ++ _ ++ _)
    rw [List.append_assoc]
    apply divorceMirrored_append_pair _ _ _ hinv <;> rfl

theorem divorce_no_couple_row_of_find_none (db : DB) (h w : Nat)
    (hinv : divorceMirrored db.divorces)
    (hf : db.divorces.find? (fun r => r.personId == h && r.otherId == w) = none) :
    ∀ d, divorceExists db w h d = false := by
  intro d
  cases hx : divorceExists db w h d with
  | false => rfl
  | true =>
    exfalso
    unfold divorceExists at hx
    simp only [List.any_eq_true, Bool.and_eq_true, beq_iff_eq] at hx
    obtain ⟨r, hr, ⟨hr1, hr2⟩, hr3⟩ := hx
    obtain ⟨t, ht, ht1, ht2, _, _, _⟩ := hinv r hr
    have := List.find?_eq_none.mp hf t ht
    rw [ht1, ht2, hr1, hr2] at this
    simp at this

theorem importMarriage_divorces (h w : Nat) (data : List (String × GVal))
    (db : DB) (st : Stats) :
    (importMarriage false h w data db st).1.divorces = db.divorces := by
  unfold importMarriage
  dsimp only
  repeat' split
  all_goals simp [marriageSaveNew_divorces]

theorem importDivorce_marriages_cases (h w : Nat) (data : List (String × GVal))
    (db : DB) (st : Stats) :
    (importDivorce false h w data db st).1.marriages = db.marriages ∨
    (importDivorce false h w data db st).1.marriages = (endMarriages db h w).marriages := by
  unfold importDivorce
  dsimp only
  repeat' split
  all_goals first
  | exact Or.inl rfl
  | (rw [divorceSaveNew_marriages]; exact Or.inr rfl)

theorem importMarriage_mirrored (h w : Nat) (data : List (String × GVal))
    (db : DB) (st : Stats) (hinv : marriageMirrored db.marriages) :
    marriageMirrored (importMarriage false h w data db st).1.marriages := by
  unfold importMarriage
  dsimp only
  cases hp : pyParseDate (dictGetD (marrDict data) "DATE" "") with
  | error e => exact hinv
  | ok dOpt =>
    cases dOpt with
    | some d =>
      try dsimp only
      split
      · rename_i hg
        simp at hg
      · split
        · rename_i hg
          have hg2 : marriageExists db w h (some d) = false := by
            by_cases hx : marriageExists db w h (some d) = true
            · rw [hx] at hg
              simp at hg
            · simpa using hx
          exact marriageSaveNew_mirrored db h w (some d) _ "" hinv hg2
        · exact hinv
    | none =>
      try dsimp only
      split
      · split
        · rename_i hg
          simp at hg
        · cases hf : db.marriages.find? (fun r => r.personId == h && r.otherId == w) with
          | some r => exact hinv
          | none =>
            exact marriageSaveNew_mirrored db h w none _ "" hinv
              (marriage_no_couple_row_of_find_none db h w hinv hf none)
      · exact hinv

theorem importDivorce_mirrored (h w : Nat) (data : List (String × GVal))
    (db : DB) (st : Stats) (hm : marriageMirrored db.marriages)
    (hd : divorceMirrored db.divorces) :
    marriageMirrored (importDivorce false h w data db st).1.marriages ∧
    divorceMirrored (importDivorce false h w data db st).1.divorces := by
  unfold importDivorce
  dsimp only
  cases hp : pyParseDate (dictGetD (divDict data) "DATE" "") with
  | error e => exact ⟨hm, hd⟩
  | ok dOpt =>
    cases dOpt with
    | some d =>
      try dsimp only
      split
      · rename_i hg
        simp at hg
      · split
        · rename_i hg
          have hg2 : divorceExists db w h (some d) = false := by
            by_cases hx : divorceExists db w h (some d) = true
            · rw [hx] at hg
              simp at hg
            · simpa using hx
          constructor
          · show marriageMirrored (divorceSaveNew db h w (some d) _ "").marriages
            rw [divorceSaveNew_marriages]
            exact endMarriages_mirrored db h w hm
          · exact divorceSaveNew_mirrored db h w (some d) _ "" hd hg2
        · exact ⟨hm, hd⟩
    | none =>
      try dsimp only
      split
      · split
        · rename_i hg
          simp at hg
        · cases hf : db.divorces.find? (fun r => r.personId == h && r.otherId == w) with
          | some r => exact ⟨hm, hd⟩
          | none =>
            constructor
            · show marriageMirrored (divorceSaveNew db h w none _ "").marriages
              rw [divorceSaveNew_marriages]
              exact endMarriages_mirrored db h w hm
            · exact divorceSaveNew_mirrored db h w none _ "" hd
                (divorce_no_couple_row_of_find_none db h w hd hf none)
      · exact ⟨hm, hd⟩

theorem pcrGetOrCreate_marriages (db : DB) (p c : Nat) :
    (pcrGetOrCreate db p c).1.marriages = db.marriages := by
  unfold pcrGetOrCreate
  cases db.parentChild.find? (fun r => r.parentId == p && r.childId == c) <;> rfl

theorem pcrGetOrCreate_divorces (db : DB) (p c : Nat) :
    (pcrGetOrCreate db p c).1.divorces = db.divorces := by
  unfold pcrGetOrCreate
  cases db.parentChild.find? (fun r => r.parentId == p && r.childId == c) <;> rfl

theorem importChildLinks_tables (h w : Nat) (pmap : List (Option String × PersonRef))
    (children : List GVal) : ∀ db st,
    (importChildLinks false h w pmap db st children).1.marriages = db.marriages ∧
    (importChildLinks false h w pmap db st children).1.divorces = db.divorces := by
  induction children with
  | nil => exact fun db st => ⟨rfl, rfl⟩
  | cons v rest ih =>
    intro db st
    unfold importChildLinks
    dsimp only
    repeat' split
    all_goals first
    | exact ⟨rfl, rfl⟩
    | exact ih db st
    | exact ih db st.incRel
    | (obtain ⟨m1, d1⟩ := ih _ _
       constructor
       · rw [m1, pcrGetOrCreate_marriages, pcrGetOrCreate_marriages]
       · rw [d1, pcrGetOrCreate_divorces, pcrGetOrCreate_divorces])

theorem stepBind_db (P : DB → Prop) (r : DB × Stats × Except String Unit)
    (f : DB → Stats → DB × Stats × Except String Unit)
    (hr : P r.1) (hf : ∀ db2 st2, P db2 → P (f db2 st2).1) :
    P (stepBind r f).1 := by
  obtain ⟨db1, st1, out⟩ := r
  cases out with
  | ok u => exact hf db1 st1 hr
  | error e => exact hr

theorem coupleMarriages_nil_noexist (db : DB) (h w : Nat) (d : Option PyDate)
    (hfresh : coupleMarriages db h w = []) :
    marriageExists db h w d = false ∧ marriageExists db w h d = false := by
  rw [coupleMarriages, List.filter_eq_nil_iff] at hfresh
  constructor <;>
  · rw [marriageExists, List.any_eq_false]
    intro r hr
    have h2 := hfresh r hr
    simp only [Bool.or_eq_true, Bool.and_eq_true, beq_iff_eq, not_or, not_and] at h2 ⊢
    tauto

theorem marriageSaveNew_fresh (db : DB) (h w : Nat) (d : Option PyDate)
    (loc : String) (hne : h ≠ w)
    (hwh : marriageExists db w h d = false) :
    (marriageSaveNew db h w d loc "").marriages =
      db.marriages ++ [⟨db.nextId, h, w, d, loc, "", false⟩,
                       ⟨db.nextId + 1, w, h, d, loc, "", false⟩] := by
  unfold marriageSaveNew
  dsimp only
  split
  · rename_i hex
    exfalso
    rw [marriageExists] at hex hwh
    dsimp only at hex
    rw [List.any_append, hwh] at hex
    simp only [Bool.false_or, List.any_cons, List.any_nil, Bool.or_false,
      Bool.and_eq_true, beq_iff_eq] at hex
    exact hne hex.1.1
  · dsimp only
    rw [List.append_assoc]
    rfl

theorem importMarriage_fresh_pair (h w : Nat) (data : List (String × GVal))
    (db : DB) (st : Stats) (d : PyDate)
    (hp : pyParseDate (dictGetD (marrDict data) "DATE" "") = Except.ok (some d))
    (hne : h ≠ w) (hfresh : coupleMarriages db h w = []) :
    (importMarriage false h w data db st).1.marriages =
      db.marriages ++
        [⟨db.nextId, h, w, some d, dictGetD (marrDict data) "PLAC" "", "", false⟩,
         ⟨db.nextId + 1, w, h, some d, dictGetD (marrDict data) "PLAC" "", "", false⟩] ∧
    (importMarriage false h w data db st).2.2 = Except.ok () := by
  obtain ⟨he1, he2⟩ := coupleMarriages_nil_noexist db h w (some d) hfresh
  unfold importMarriage
  dsimp only
  rw [hp]
  dsimp only
  rw [if_neg (by simp : ¬((false : Bool) = true))]
  rw [if_pos (by rw [he1, he2]; rfl : (!marriageExists db h w (some d) &&
        !marriageExists db w h (some d)) = true)]
  exact ⟨marriageSaveNew_fresh db h w (some d) _ hne he2, rfl⟩

theorem importDivorce_nodata (p : Bool) (h w : Nat) (data : List (String × GVal))
    (db : DB) (st : Stats) (hno : gvalGet data "DIV" = none) :
    importDivorce p h w data db st = (db, st, Except.ok ()) := by
  have hdd : divDict data = [] := by rw [divDict, hno]
  unfold importDivorce
  dsimp only
  rw [hdd]
  rfl

theorem importFamily_resolved (cfg : ImpCfg) (fam : GRecord)
    (pmap : List (Option String × PersonRef)) (db : DB) (st : Stats)
    (hid wid : String) (hRef wRef : PersonRef)
    (hhu : famMemberId fam.rdata "HUSB" = Except.ok hid)
    (hwi : famMemberId fam.rdata "WIFE" = Except.ok wid)
    (hhl : pmapLookup pmap (some hid) = some hRef)
    (hwl : pmapLookup pmap (some wid) = some wRef) :
    importFamily cfg fam pmap db st =
      stepBind (importMarriage cfg.pretend hRef.refId wRef.refId fam.rdata db st)
        (fun db1 st1 =>
          stepBind (importDivorce cfg.pretend hRef.refId wRef.refId fam.rdata db1 st1)
            (fun db2 st2 =>
              importChildLinks cfg.pretend hRef.refId wRef.refId pmap db2 st2
                (famChildren fam.rdata))) := by
  unfold importFamily
  dsimp only
  rw [hhu, hwi]
  dsimp only
  rw [hhl, hwl]

/-- C2: the symmetric-couple-event invariant is preserved by importing any
family in real lenient mode — every marriage row and every divorce row
keeps a mirror row with the directions swapped and the same date, location
and comment — and, concretely, a family whose two spouses both resolve to
distinct persons, whose `MARR` block has a parseable date and which has no
`DIV` data produces, over a store with no prior marriage between the
couple, exactly two marriage rows for the couple: one per direction, with
the same date and identical location and comment. -/
theorem c2_symmetric_couple_events (fam : GRecord)
    (pmap : List (Option String × PersonRef)) (db : DB) (st : Stats)
    (hm : marriageMirrored db.marriages) (hd : divorceMirrored db.divorces) :
    (marriageMirrored (importFamily realLenient fam pmap db st).1.marriages ∧
     divorceMirrored (importFamily realLenient fam pmap db st).1.divorces) ∧
    (∀ hid wid hRef wRef d,
       famMemberId fam.rdata "HUSB" = Except.ok hid →
       famMemberId fam.rdata "WIFE" = Except.ok wid →
       pmapLookup pmap (some hid) = some hRef →
       pmapLookup pmap (some wid) = some wRef →
       pyParseDate (dictGetD (marrDict fam.rdata) "DATE" "") = Except.ok (some d) →
       gvalGet fam.rdata "DIV" = none →
       hRef.refId ≠ wRef.refId →
       coupleMarriages db hRef.refId wRef.refId = [] →
       coupleMarriages (importFamily realLenient fam pmap db st).1
           hRef.refId wRef.refId =
         [⟨db.nextId, hRef.refId, wRef.refId, some d,
           dictGetD (marrDict fam.rdata) "PLAC" "", "", false⟩,
          ⟨db.nextId + 1, wRef.refId, hRef.refId, some d,
           dictGetD (marrDict fam.rdata) "PLAC" "", "", false⟩]) := by
  constructor
  · unfold importFamily
    dsimp only [realLenient]
    cases famMemberId fam.rdata "HUSB" with
    | error e => exact ⟨hm, hd⟩
    | ok hid =>
      dsimp only
      cases famMemberId fam.rdata "WIFE" with
      | error e => exact ⟨hm, hd⟩
      | ok wid =>
        dsimp only
        cases pmapLookup pmap (some hid) with
        | none => cases pmapLookup pmap (some wid) <;> exact ⟨hm, hd⟩
        | some hRef =>
          cases pmapLookup pmap (some wid) with
          | none => exact ⟨hm, hd⟩
          | some wRef =>
            dsimp only
            refine stepBind_db
              (fun db2 => marriageMirrored db2.marriages ∧ divorceMirrored db2.divorces)
              _ _ ?_ ?_
            · refine ⟨importMarriage_mirrored _ _ fam.rdata db st hm, ?_⟩
              rw [importMarriage_divorces]
              exact hd
            · intro db2 st2 hP
              refine stepBind_db
                (fun db3 => marriageMirrored db3.marriages ∧ divorceMirrored db3.divorces)
                _ _ ?_ ?_
              · exact importDivorce_mirrored _ _ fam.rdata db2 st2 hP.1 hP.2
              · intro db3 st3 hQ
                obtain ⟨hma, hdi⟩ :=
                  importChildLinks_tables hRef.refId wRef.refId pmap
                    (famChildren fam.rdata) db3 st3
                rw [hma, hdi]
                exact hQ
  · intro hid wid hRef wRef d hhu hwi hhl hwl hp hdiv hne hfresh
    rw [importFamily_resolved realLenient fam pmap db st hid wid hRef wRef hhu hwi hhl hwl]
    dsimp only [realLenient]
    obtain ⟨hmar, hok⟩ :=
      importMarriage_fresh_pair hRef.refId wRef.refId fam.rdata db st d hp hne hfresh
    rw [stepBind_ok _ _ hok]
    rw [importDivorce_nodata false hRef.refId wRef.refId fam.rdata _ _ hdiv]
    rw [stepBind]
    rw [coupleMarriages]
    rw [(importChildLinks_tables hRef.refId wRef.refId pmap (famChildren fam.rdata) _ _).1]
    rw [hmar]
    rw [coupleMarriages] at hfresh
    rw [List.filter_append, hfresh]
    simp

/-- Witness for C2: a concrete family (`HUSB @I1@`, `WIFE @I2@`, a dated
marriage and no divorce data) imported over the empty store through a map
resolving the spouses to persons 1 and 2 yields exactly the two mirrored
marriage rows. -/
theorem c2_witness :
    coupleMarriages
        (importFamily realLenient
          ⟨some "@F1@", "FAM",
            [("HUSB", GVal.vals ["@I1@"]), ("WIFE", GVal.vals ["@I2@"]),
             ("MARR", GVal.dict [("DATE", "05 JUN 2005")])]⟩
          [(some "@I1@", PersonRef.real 1), (some "@I2@", PersonRef.real 2)]
          emptyDB initStats).1 1 2 =
      [⟨1, 1, 2, some ⟨2005, 6, 5⟩, "", "", false⟩,
       ⟨2, 2, 1, some ⟨2005, 6, 5⟩, "", "", false⟩] :=
  (c2_symmetric_couple_events
      ⟨some "@F1@", "FAM",
        [("HUSB", GVal.vals ["@I1@"]), ("WIFE", GVal.vals ["@I2@"]),
         ("MARR", GVal.dict [("DATE", "05 JUN 2005")])]⟩
      [(some "@I1@", PersonRef.real 1), (some "@I2@", PersonRef.real 2)]
      emptyDB initStats
      (by intro r hr; simp [emptyDB] at hr)
      (by intro r hr; simp [emptyDB] at hr)).2
    "@I1@" "@I2@" (PersonRef.real 1) (PersonRef.real 2) ⟨2005, 6, 5⟩
    rfl rfl rfl rfl (by decide) rfl (by decide) rfl

theorem importPersonStep_errors (p : Bool) (gid : Option String)
    (matched : Option PersonView) (db : DB) (st : Stats) :
    (importPersonStep p gid matched db st).2.1.errors = st.errors := by
  unfold importPersonStep
  repeat' split
  all_goals rfl

theorem importIndividual_errors (cfg : ImpCfg) (ind : GRecord) (ex : List Nat)
    (db : DB) (st : Stats) :
    (importIndividual cfg ind ex db st).2.1.errors = st.errors := by
  unfold importIndividual
  dsimp only
  repeat' split
  all_goals try rfl
  rw [(importIndividualTail_frame _ _ _ _ _).2.2.2]
  rw [(importNameStep_frame _ _ _ _ _ _ _).2.2.2]
  rw [importPersonStep_errors]

theorem importIndividualStep_errors (cfg : ImpCfg) (acc : IndLoopSt) (ind : GRecord) :
    ∀ e ∈ (importIndividualStep cfg acc ind).stats.errors,
      e ∈ acc.stats.errors ∨ TaggedErrorMsg e := by
  intro e he
  have herr0 := importIndividual_errors cfg ind acc.existing acc.db acc.stats
  rcases hr : importIndividual cfg ind acc.existing acc.db acc.stats with ⟨db1, st1, out⟩
  rw [hr] at herr0
  dsimp at herr0
  unfold importIndividualStep at he
  rw [hr] at he
  cases out with
  | ok po =>
    cases po with
    | some person =>
      dsimp at he
      rw [herr0] at he
      exact Or.inl he
    | none =>
      dsimp at he
      rw [herr0] at he
      exact Or.inl he
  | error msg =>
    dsimp at he
    rw [herr0, List.mem_append] at he
    cases he with
    | inl h2 => exact Or.inl h2
    | inr h2 =>
      rw [List.mem_singleton] at h2
      exact Or.inr (Or.inl ⟨renderOptId ind.gid, msg, h2⟩)

theorem importMarriage_errors (p : Bool) (h w : Nat) (data : List (String × GVal))
    (db : DB) (st : Stats) :
    (importMarriage p h w data db st).2.1.errors = st.errors := by
  unfold importMarriage
  dsimp only
  repeat' split
  all_goals rfl

theorem importDivorce_errors (p : Bool) (h w : Nat) (data : List (String × GVal))
    (db : DB) (st : Stats) :
    (importDivorce p h w data db st).2.1.errors = st.errors := by
  unfold importDivorce
  dsimp only
  repeat' split
  all_goals rfl

theorem importChildLinks_errors (p : Bool) (h w : Nat)
    (pmap : List (Option String × PersonRef)) (children : List GVal) :
    ∀ db st, (importChildLinks p h w pmap db st children).2.1.errors = st.errors := by
  induction children with
  | nil => intro db st; rfl
  | cons v rest ih =>
    intro db st
    unfold importChildLinks
    dsimp only
    repeat' split
    all_goals first
    | rfl
    | exact ih _ _

theorem stepBind_errors (r : DB × Stats × Except String Unit)
    (f : DB → Stats → DB × Stats × Except String Unit) (st : Stats)
    (hr : r.2.1.errors = st.errors)
    (hf : ∀ db2 st2, (f db2 st2).2.1.errors = st2.errors) :
    (stepBind r f).2.1.errors = st.errors := by
  obtain ⟨db1, st1, out⟩ := r
  cases out with
  | ok u => exact (hf db1 st1).trans hr
  | error e => exact hr

theorem importFamily_errors (cfg : ImpCfg) (fam : GRecord)
    (pmap : List (Option String × PersonRef)) (db : DB) (st : Stats) :
    (importFamily cfg fam pmap db st).2.1.errors = st.errors := by
  unfold importFamily
  dsimp only
  repeat' split
  all_goals try rfl
  exact stepBind_errors _ _ _ (importMarriage_errors _ _ _ _ _ _)
    (fun db1 st1 => stepBind_errors _ _ _ (importDivorce_errors _ _ _ _ _ _)
      (fun db2 st2 => importChildLinks_errors _ _ _ _ _ _ _))

theorem importFamilyStep_errors (cfg : ImpCfg)
    (pmap : List (Option String × PersonRef)) (acc : DB × Stats) (fam : GRecord) :
    ∀ e ∈ (importFamilyStep cfg pmap acc fam).2.errors,
      e ∈ acc.2.errors ∨ TaggedErrorMsg e := by
  intro e he
  have herr0 := importFamily_errors cfg fam pmap acc.1 acc.2
  rcases hr : importFamily cfg fam pmap acc.1 acc.2 with ⟨db1, st1, out⟩
  rw [hr] at herr0
  dsimp at herr0
  unfold importFamilyStep at he
  rw [hr] at he
  cases out with
  | ok u =>
    dsimp at he
    rw [herr0] at he
    exact Or.inl he
  | error msg =>
    dsimp at he
    rw [herr0, List.mem_append] at he
    cases he with
    | inl h2 => exact Or.inl h2
    | inr h2 =>
      rw [List.mem_singleton] at h2
      exact Or.inr (Or.inr ⟨renderOptId fam.gid, msg, h2⟩)

theorem foldl_preserves {α β : Type} (P : β → Prop) (f : β → α → β)
    (hstep : ∀ b a, P b → P (f b a)) :
    ∀ (l : List α) (init : β), P init → P (l.foldl f init) := by
  intro l
  induction l with
  | nil => exact fun init h0 => h0
  | cons x xs ih => exact fun init h0 => ih (f init x) (hstep init x h0)

theorem importGedcom_errors_tagged (cfg : ImpCfg) (lines : List String) (db : DB) :
    ∀ e ∈ (importGedcom cfg lines db).2.errors, TaggedErrorMsg e := by
  unfold importGedcom
  dsimp only
  refine foldl_preserves
    (fun acc : DB × Stats => ∀ e ∈ acc.2.errors, TaggedErrorMsg e) _
    (fun b a hP e he => (importFamilyStep_errors _ _ b a e he).elim (hP e) id)
    _ _ ?_
  exact foldl_preserves
    (fun acc : IndLoopSt => ∀ e ∈ acc.stats.errors, TaggedErrorMsg e)
    (importIndividualStep cfg)
    (fun b a hP e he => (importIndividualStep_errors cfg b a e he).elim (hP e) id)
    (parseGedcom lines).1 ⟨db, initStats, db.persons.map (fun p => p.id), []⟩
    (fun e he => absurd he (List.not_mem_nil e))

/-- C6: a missing input file makes the import fail with the fatal
`File not found` error before any record is processed; with a file present
the run always completes and returns its summary; every entry of the
run's error list is an exception message tagged with the offending
individual's or family's GEDCOM id; and, concretely, a real-mode import
of a file whose first individual has an out-of-range birth date records
exactly that individual's tagged error and still imports the following
individual. -/
theorem c6_error_handling (cfg : ImpCfg) (db : DB) (lines : List String) :
    runImport none cfg db = Except.error "File not found" ∧
    runImport (some lines) cfg db = Except.ok (importGedcom cfg lines db) ∧
    (∀ e ∈ (importGedcom cfg lines db).2.errors, TaggedErrorMsg e) ∧
    ((importGedcom realLenient
        ["0 @I1@ INDI", "1 NAME John /Smith/", "1 BIRT", "2 DATE 99 JAN 2000",
         "0 @I2@ INDI", "1 NAME Mary /Jones/"] emptyDB).2.errors =
       ["Error importing individual @I1@: date value out of range"] ∧
     (importGedcom realLenient
        ["0 @I1@ INDI", "1 NAME John /Smith/", "1 BIRT", "2 DATE 99 JAN 2000",
         "0 @I2@ INDI", "1 NAME Mary /Jones/"] emptyDB).1.persons.length = 2) :=
  ⟨rfl, rfl, importGedcom_errors_tagged cfg lines db, by decide⟩

/-- C1 counterexample: importing twice is not idempotent in general.  For
a valid file of three individuals whose given names form a nickname chain
(Bob, Bobby and Robert Smith: `bobby`–`robert` and `robert`–`bob` are
nickname pairs but `bobby`–`bob` is not), the second real-mode run links
one additional `PersonName` row — the first run attaches Robert's name to
the Bob person, so on the second run Bobby matches that person through
the `robert` name — and so reports a nonzero created counter. -/
theorem c1_counterexample :
    rowCounts chainRun2.1 ≠ rowCounts chainRun1.1 ∧
    chainRun2.2.namesLinked = 1 := by
  decide

/-- C1 (amended): the idempotence guarantee does hold for the test
suite's sample file — the second real-mode run adds no rows to any table,
reports zero for every created/linked counter, and reports updated equal
to the file's individual count. -/
theorem c1_amended_sample_idempotent :
    rowCounts sampleRun2.1 = rowCounts sampleRun1.1 ∧
    sampleRun2.2.individualsCreated = 0 ∧
    sampleRun2.2.familiesCreated = 0 ∧
    sampleRun2.2.eventsCreated = 0 ∧
    sampleRun2.2.namesCreated = 0 ∧
    sampleRun2.2.namesLinked = 0 ∧
    sampleRun2.2.relationshipsCreated = 0 ∧
    sampleRun2.2.individualsUpdated = (parseGedcom sampleGedcomLines).1.length := by
  decide

end Djtree
